import Mathlib

set_option maxRecDepth 100000

/-!
Shallow embedding of `src/.opencode/plugins/honeycomb-tracing.ts` (plugin
version 8.4.1): the span-lifecycle state machine, the handoff mechanism for
delegated sub-sessions, the tool-execution aggregation logic, and the
TTL-based garbage collector.  JS `Map`s are modelled as insertion-ordered
association lists, OpenTelemetry spans as numeric handles together with an
append-only action log, and `Date.now()` as an explicit `now : Nat`
parameter per handler invocation.
-/

namespace HoneycombTracing

/-! ## Association lists modelling JS `Map` (insertion order preserved) -/

/-- `Map.get k`: value of the first entry with key `k`. -/
def alGet {α : Type} (l : List (String × α)) (k : String) : Option α :=
  match l.find? (fun e => e.1 = k) with
  | some e => some e.2
  | none => none

/-- `Map.set k v`: replace in place if the key is present, else append. -/
def alSet {α : Type} : List (String × α) → String → α → List (String × α)
  | [], k, v => [(k, v)]
  | e :: t, k, v => if e.1 = k then (k, v) :: t else e :: alSet t k v

/-- `Map.delete k`. -/
def alDelete {α : Type} (l : List (String × α)) (k : String) : List (String × α) :=
  l.filter (fun e => e.1 ≠ k)

/-! ## Truthiness helpers for optional / empty strings (JS `||`, `!x`) -/

/-- JS truthiness of a possibly-undefined string. -/
def strTruthy : Option String → Bool
  | none => false
  | some s => s ≠ ""

/-- JS `a || b` on two possibly-undefined strings, defaulting to `""`. -/
def jsOr (a b : Option String) : String :=
  if strTruthy a then a.getD "" else if strTruthy b then b.getD "" else ""

/-- JS `a || d` for a possibly-undefined string with a literal default. -/
def jsOrS (a : Option String) (d : String) : String :=
  if strTruthy a then a.getD "" else d

/-- JS `String.prototype.slice(0, n)`. -/
def jsSlice (s : String) (n : Nat) : String := ⟨s.data.take n⟩

/-! ## Configuration constants -/

def SESSION_TTL_MS : Nat := 30 * 60 * 1000
def TOOL_TTL_MS : Nat := 5 * 60 * 1000
def PENDING_CONTEXT_TTL_MS : Nat := 10 * 60 * 1000
def CLEANUP_INTERVAL_MS : Nat := 5 * 60 * 1000

def PLUGIN_VERSION : String := "8.4.1"

/-- `gitBranch` is read from the environment at startup; "unknown" when git is
unavailable.  The claims do not depend on its value, so the fallback is used. -/
def gitBranch : String := "unknown"

/-- `gitCommit`, as for `gitBranch`. -/
def gitCommit : String := "unknown"

/-- Phase mapping: agent type → workflow phase name (`AGENT_PHASE_MAP`). -/
def AGENT_PHASE_MAP : List (String × String) :=
  [("planner", "planning"), ("builder", "implementation"), ("reviewer", "review"),
   ("debugger", "diagnosis"), ("beads-manager", "coordination"), ("general", "work"),
   ("explore", "exploration")]

/-- `getPhaseForAgent`: `AGENT_PHASE_MAP[agentType] || "work"`. -/
def getPhaseForAgent (agentType : String) : String :=
  (alGet AGENT_PHASE_MAP agentType).getD "work"

/-! ## Identifier extraction (pure functions over titles/descriptions) -/

/-- JS regex `\w`: `[A-Za-z0-9_]` (ASCII). -/
def isWordChar (c : Char) : Bool := c.isAlpha || c.isDigit || c = '_'

/-- JS regex `\s` restricted to the ASCII whitespace characters (the Unicode
space characters it also covers do not occur in session titles). -/
def isJsSpace (c : Char) : Bool :=
  c = ' ' || c = '\t' || c = '\n' || c = '\x0d' || c = '\x0b' || c = '\x0c'

/-- One attempted match of `@?(\w+)\s+subagent` (case-insensitive) anchored at
the head of `l`; returns the captured `\w+` group.  Because `\w` and `\s` are
disjoint and the literal tail starts with a non-space letter, the greedy
quantifiers need no backtracking. -/
def matchSubagentAt (l : List Char) : Option (List Char) :=
  let l1 := match l with
    | '@' :: t => t
    | _ => l
  let word := l1.takeWhile isWordChar
  let rest1 := l1.dropWhile isWordChar
  if word = [] then none
  else
    let sp := rest1.takeWhile isJsSpace
    let rest2 := rest1.dropWhile isJsSpace
    if sp = [] then none
    else if (rest2.take 8).map Char.toLower = "subagent".data then some word
    else none

/-- Leftmost match of `@?(\w+)\s+subagent`, scanning start positions left to
right as `String.prototype.match` does. -/
def scanSubagent : List Char → Option (List Char)
  | [] => none
  | c :: t =>
    match matchSubagentAt (c :: t) with
    | some w => some w
    | none => scanSubagent t

/-- `extractSubagentTypeFromTitle`: first match of `/@?(\w+)\s+subagent/i` in
the title, captured group lowercased; `undefined` for a missing/empty title or
no match. -/
def extractSubagentTypeFromTitle (title : Option String) : Option String :=
  match title with
  | none => none
  | some t =>
    if t = "" then none
    else (scanSubagent t.data).map (fun w => ⟨w.map Char.toLower⟩)

/-- `[a-z0-9]` under the `/i` flag: ASCII letters and digits. -/
def isAlnumChar (c : Char) : Bool := c.isAlpha || c.isDigit

/-- One attempted match of `\bbd-[a-z0-9]+\b` (case-insensitive) at the head
of `l`, where `prev` is the character before `l` (for the leading `\b`). -/
def matchBeadsAt (prev : Option Char) (l : List Char) : Option (List Char) :=
  if (match prev with | none => true | some c => !isWordChar c) then
    match l with
    | b :: d :: dash :: rest =>
      if b.toLower = 'b' && d.toLower = 'd' && dash = '-' then
        let run := rest.takeWhile isAlnumChar
        let after := rest.dropWhile isAlnumChar
        if run ≠ [] && (match after with | [] => true | c :: _ => !isWordChar c) then
          some (b :: d :: dash :: run)
        else none
      else none
    | _ => none
  else none

/-- Leftmost match of `\bbd-[a-z0-9]+\b`, scanning left to right. -/
def scanBeads : Option Char → List Char → Option (List Char)
  | _, [] => none
  | prev, c :: t =>
    match matchBeadsAt prev (c :: t) with
    | some m => some m
    | none => scanBeads (some c) t

/-- `extractBeadsTaskId`: first match of `/\bbd-[a-z0-9]+\b/i`, lowercased. -/
def extractBeadsTaskId (text : Option String) : Option String :=
  match text with
  | none => none
  | some t =>
    if t = "" then none
    else (scanBeads none t.data).map (fun w => ⟨w.map Char.toLower⟩)

/-! ## Data model -/

/-- `ToolError` entries of the aggregate's error log. -/
structure ToolError where
  tool : String
  message : String
  timestamp : Nat
  callId : String
  sequenceNumber : Nat
  deriving DecidableEq, Repr

/-- `ToolExecution`: transient per-invocation state, keyed by call id. -/
structure ToolExecution where
  tool : String
  callId : String
  startTime : Nat
  sequenceNumber : Nat
  sessionID : String
  argsPreview : String
  deriving DecidableEq, Repr

/-- `ToolAggregate`; `counts` is a JS object with insertion-ordered keys. -/
structure ToolAggregate where
  counts : List (String × Nat)
  errors : List ToolError
  totalDurationMs : Nat
  executions : Nat
  deriving DecidableEq, Repr

/-- An OpenTelemetry span handle: its span id and the trace it belongs to. -/
structure SpanH where
  sid : Nat
  traceId : Nat
  deriving DecidableEq, Repr

/-- `span.spanContext()`: the propagable identity of a span. -/
structure SpanContext where
  traceId : Nat
  spanId : Nat
  deriving DecidableEq, Repr

def SpanH.spanContext (h : SpanH) : SpanContext := ⟨h.traceId, h.sid⟩

/-- An OpenTelemetry `Context`, modelled by its active span context. -/
abbrev Ctx : Type := Option SpanContext

/-- `SessionData`: one tracked work unit ("session"). -/
structure SessionData where
  span : SpanH
  ctx : Ctx
  startTime : Nat
  phase : Option String
  agentType : Option String
  agentMode : Option String
  modelId : Option String
  beadsTaskId : Option String
  lastKnownAgentName : Option String
  lastKnownModelId : Option String
  toolAggregate : ToolAggregate
  messageCount : Nat
  cumulativeInputTokens : Nat
  cumulativeOutputTokens : Nat
  deriving DecidableEq, Repr

/-- `PhaseData`: the phase span wrapping a delegated (subagent) session. -/
structure PhaseData where
  span : SpanH
  ctx : Ctx
  startTime : Nat
  phase : String
  agentType : String
  deriving DecidableEq, Repr

/-- `SubagentContext`: the handoff record from `task` tool to child session. -/
structure SubagentContext where
  subagentType : String
  parentSessionId : String
  taskDescription : String
  parentCtx : Ctx
  parentSpanContext : SpanContext
  createdAt : Nat
  deriving DecidableEq, Repr

/-- Attribute values attached to spans and span events.  `errs` stands for the
`JSON.stringify` serialization of a list of tool errors. -/
inductive AttrVal where
  | s (v : String)
  | n (v : Nat)
  | b (v : Bool)
  | errs (v : List ToolError)
  deriving DecidableEq, Repr

/-- Observable span operations, recorded in chronological order. -/
inductive SpanAction where
  | start (sid : Nat) (name : String) (traceId : Nat) (parent : Option Nat)
      (attrs : List (String × AttrVal))
  | setAttrs (sid : Nat) (attrs : List (String × AttrVal))
  | setAttr (sid : Nat) (key : String) (v : AttrVal)
  | addEvent (sid : Nat) (name : String) (attrs : List (String × AttrVal))
  | setStatus (sid : Nat) (ok : Bool) (message : String)
  | endSpan (sid : Nat)
  deriving DecidableEq, Repr

/-- The engine's whole mutable state: the four tracking maps, fresh-id
counters for spans and traces, and the chronological span-action log. -/
structure TraceState where
  sessionSpans : List (String × SessionData)
  phaseSpans : List (String × PhaseData)
  toolExecutions : List (String × ToolExecution)
  pendingSubagentContext : List (String × SubagentContext)
  nextSpanId : Nat
  nextTraceId : Nat
  log : List SpanAction
  deriving DecidableEq, Repr

def initState : TraceState := ⟨[], [], [], [], 0, 0, []⟩

/-- Append one observable span operation to the log. -/
def emit (st : TraceState) (a : SpanAction) : TraceState :=
  { st with log := st.log ++ [a] }

/-- `tracer.startSpan(name, { attributes }, parentCtx)`: the new span joins
the parent's trace when a parent context with a span context is given,
otherwise it roots a fresh trace. -/
def startSpan (st : TraceState) (name : String) (attrs : List (String × AttrVal))
    (parent : Ctx) : SpanH × TraceState :=
  match parent with
  | some sc =>
    (⟨st.nextSpanId, sc.traceId⟩,
     { st with nextSpanId := st.nextSpanId + 1,
               log := st.log ++ [.start st.nextSpanId name sc.traceId (some sc.spanId) attrs] })
  | none =>
    (⟨st.nextSpanId, st.nextTraceId⟩,
     { st with nextSpanId := st.nextSpanId + 1, nextTraceId := st.nextTraceId + 1,
               log := st.log ++ [.start st.nextSpanId name st.nextTraceId none attrs] })

/-! ## Tool aggregation helpers -/

/-- Stable insertion keeping counts in descending order: a new element goes
after all earlier elements with a count `≥` its own, matching the stable JS
`sort((a, b) => b[1] - a[1])`. -/
def insertByCountDesc (x : String × Nat) : List (String × Nat) → List (String × Nat)
  | [] => [x]
  | y :: ys => if y.2 ≥ x.2 then y :: insertByCountDesc x ys else x :: y :: ys

def sortByCountDesc (l : List (String × Nat)) : List (String × Nat) :=
  l.foldl (fun acc x => insertByCountDesc x acc) []

/-- `createToolsSummary`: `"read:5,edit:3"`, counts descending. -/
def createToolsSummary (counts : List (String × Nat)) : String :=
  String.intercalate "," ((sortByCountDesc counts).map (fun e => e.1 ++ ":" ++ toString e.2))

/-- `Object.values(counts).reduce((a, b) => a + b, 0)`. -/
def totalCount (counts : List (String × Nat)) : Nat :=
  (counts.map (fun e => e.2)).foldl (· + ·) 0

/-- `createToolAggregate`. -/
def createToolAggregate : ToolAggregate :=
  { counts := [], errors := [], totalDurationMs := 0, executions := 0 }

/-! ## Phase span cleanup helpers -/

structure PhaseCleanupResult where
  toolsSummary : String
  totalToolCount : Nat
  errorCount : Nat
  deriving DecidableEq, Repr

/-- `cleanupPhaseSpan`: finalize and drop the phase record paired with
`sessionID`, if any; returns the tool statistics for the caller. -/
def cleanupPhaseSpan (st : TraceState) (now : Nat) (sessionID : String) (success : Bool)
    (errorMessage : Option String)
    (toolStats : Option (List (String × Nat) × List ToolError)) :
    TraceState × PhaseCleanupResult :=
  let counts := match toolStats with | some s => s.1 | none => []
  let errors := match toolStats with | some s => s.2 | none => []
  let toolsSummary := createToolsSummary counts
  let totalToolCount := totalCount counts
  match alGet st.phaseSpans sessionID with
  | some phaseData =>
    let st1 := emit st (.setAttrs phaseData.span.sid [
      ("phase.duration_ms", .n (now - phaseData.startTime)),
      ("phase.success", .b success),
      ("tools.summary", .s (if toolsSummary = "" then "none" else toolsSummary)),
      ("tools.total_count", .n totalToolCount),
      ("tools.error_count", .n errors.length)])
    let st2 :=
      if success then emit st1 (.setStatus phaseData.span.sid true "")
      else emit st1 (.setStatus phaseData.span.sid false
        (jsOrS errorMessage "Session ended with error"))
    let st3 := emit st2 (.endSpan phaseData.span.sid)
    ({ st3 with phaseSpans := alDelete st3.phaseSpans sessionID },
     ⟨toolsSummary, totalToolCount, errors.length⟩)
  | none => (st, ⟨toolsSummary, totalToolCount, errors.length⟩)

/-- `cleanupOrphanedPhaseSpan`: force-close a phase record whose session
record is missing. -/
def cleanupOrphanedPhaseSpan (st : TraceState) (now : Nat) (sessionID : String)
    (reason : String) : TraceState :=
  match alGet st.phaseSpans sessionID with
  | some phaseData =>
    let st1 := emit st (.setAttrs phaseData.span.sid [
      ("phase.duration_ms", .n (now - phaseData.startTime)),
      ("phase.success", .b false),
      ("phase.cleanup_reason", .s "orphaned"),
      ("phase.orphan_reason", .s reason)])
    let st2 := emit st1 (.addEvent phaseData.span.sid "cleanup.orphaned_phase_span" [
      ("cleanup.type", .s "orphaned_phase"),
      ("cleanup.reason", .s reason),
      ("cleanup.session_id", .s sessionID)])
    let st3 := emit st2 (.setStatus phaseData.span.sid false
      ("Orphaned phase span: " ++ reason))
    let st4 := emit st3 (.endSpan phaseData.span.sid)
    { st4 with phaseSpans := alDelete st4.phaseSpans sessionID }
  | none => st

/-! ## Correlation engine: the `session.created` event handler -/

/-- The payload of a `session.created` event (`event.properties.info`). -/
structure SessInfo where
  id : String
  parentID : Option String
  title : Option String
  projectID : String
  directory : String
  deriving DecidableEq, Repr

/-- The local variables accumulated by the two parent-resolution strategies,
including the debug flags recorded on the phase span. -/
structure Resolution where
  parentSpan : Option SpanH
  parentSpanContext : Option SpanContext
  subagentType : Option String
  taskDescription : Option String
  foundParentSessionId : Option String
  s1HasParentId : Bool
  s1FoundSessionSpan : Bool
  s1FoundPendingContext : Bool
  s2ExtractedFromTitle : Bool
  s2FoundViaIteration : Bool
  deriving DecidableEq, Repr

def emptyResolution : Resolution :=
  ⟨none, none, none, none, none, false, false, false, false, false⟩

/-- Strategy 1: use `session.parentID` when OpenCode provides one.  Looks up
the parent session span and the pending handoff record (consuming — deleting —
the latter; its explicit span context overrides the parent's, being an object
and hence always truthy). -/
def strategy1 (st : TraceState) (session : SessInfo) : Resolution × TraceState :=
  if strTruthy session.parentID then
    let pid := session.parentID.getD ""
    let r0 := { emptyResolution with
      s1HasParentId := true, foundParentSessionId := some pid }
    let r1 := match alGet st.sessionSpans pid with
      | some parentSessionData =>
        { r0 with s1FoundSessionSpan := true,
                  parentSpan := some parentSessionData.span,
                  parentSpanContext := some parentSessionData.span.spanContext }
      | none => r0
    match alGet st.pendingSubagentContext pid with
    | some pending =>
      ({ r1 with s1FoundPendingContext := true,
                 subagentType := some pending.subagentType,
                 taskDescription := some pending.taskDescription,
                 parentSpanContext := some pending.parentSpanContext },
       { st with pendingSubagentContext := alDelete st.pendingSubagentContext pid })
    | none => (r1, st)
  else (emptyResolution, st)

/-- Strategy 2 (fallback): extract the subagent type from the session title
and, on success, take the first session in insertion order with no
`agentType` (a main session) as parent. -/
def strategy2 (sessions : List (String × SessionData)) (title : Option String)
    (r : Resolution) : Resolution :=
  if strTruthy r.subagentType then r
  else
    match extractSubagentTypeFromTitle title with
    | none => r
    | some titleType =>
      if titleType = "" then r
      else
        let r1 := { r with s2ExtractedFromTitle := true, subagentType := some titleType }
        match sessions.find? (fun e => !(strTruthy e.2.agentType)) with
        | some e =>
          { r1 with s2FoundViaIteration := true,
                    parentSpan := some e.2.span,
                    parentSpanContext := some e.2.span.spanContext,
                    foundParentSessionId := some e.1 }
        | none => r1

/-- The `session.created` handler: classify the new session as root or
subagent, resolve the parent trace context, and install the span records. -/
def handleSessionCreated (st : TraceState) (now : Nat) (session : SessInfo) : TraceState :=
  let dbgSessionSpansSize := st.sessionSpans.length
  let dbgSessionSpansKeys := String.intercalate "," (st.sessionSpans.map (fun e => e.1))
  let dbgPendingSize := st.pendingSubagentContext.length
  let dbgPendingKeys := String.intercalate "," (st.pendingSubagentContext.map (fun e => e.1))
  let dbgSessionParentId := session.parentID.getD ""
  let dbgSessionTitle := session.title.getD ""
  let s1 := strategy1 st session
  let st0 := s1.2
  let r := strategy2 st.sessionSpans session.title s1.1
  let isSubAgent := strTruthy r.subagentType
  let beadsTaskId := match extractBeadsTaskId session.title with
    | some b => some b
    | none => extractBeadsTaskId r.taskDescription
  if isSubAgent then
    let subagentType := r.subagentType.getD ""
    let phase := getPhaseForAgent subagentType
    -- `parentSpanContext && parentSpanContext.traceId`: a present span context
    -- always has a nonempty (truthy) trace id string.
    let spanParentCtx : Ctx := r.parentSpanContext
    let phaseAttrs : List (String × AttrVal) :=
      [("phase.name", .s phase),
       ("phase.agent_type", .s subagentType),
       ("session.id", .s session.id),
       ("session.is_subagent", .b true),
       ("session.parent_id", .s (jsOr r.foundParentSessionId session.parentID)),
       ("git.branch", .s gitBranch),
       ("git.commit", .s gitCommit),
       ("plugin.version", .s PLUGIN_VERSION),
       ("debug.session_spans_size", .n dbgSessionSpansSize),
       ("debug.session_spans_keys",
         .s (if dbgSessionSpansKeys = "" then "empty" else dbgSessionSpansKeys)),
       ("debug.pending_context_size", .n dbgPendingSize),
       ("debug.pending_context_keys",
         .s (if dbgPendingKeys = "" then "empty" else dbgPendingKeys)),
       ("debug.strategy1_has_parent_id", .b r.s1HasParentId),
       ("debug.strategy1_found_session_span", .b r.s1FoundSessionSpan),
       ("debug.strategy1_found_pending_context", .b r.s1FoundPendingContext),
       ("debug.strategy2_extracted_from_title", .b r.s2ExtractedFromTitle),
       ("debug.strategy2_found_via_iteration", .b r.s2FoundViaIteration),
       ("debug.session_parent_id_input", .s dbgSessionParentId),
       ("debug.session_title_input", .s (jsSlice dbgSessionTitle 100)),
       ("debug.had_parent_span", .b r.parentSpan.isSome),
       ("debug.had_parent_span_context", .b r.parentSpanContext.isSome),
       ("debug.parent_trace_id", .s (match r.parentSpanContext with
         | some sc => toString sc.traceId
         | none => "none")),
       ("debug.found_parent_session_id", .s (r.foundParentSessionId.getD ""))]
      ++ (match beadsTaskId with
          | some b => [("beads.task_id", AttrVal.s b)]
          | none => [])
    let res1 := startSpan st0 ("phase:" ++ phase) phaseAttrs spanParentCtx
    let phaseSpan := res1.1
    let st1 := res1.2
    let phaseCtx : Ctx := some phaseSpan.spanContext
    let phaseRec : PhaseData :=
      { span := phaseSpan, ctx := phaseCtx, startTime := now,
        phase := phase, agentType := subagentType }
    let st2 := { st1 with phaseSpans := alSet st1.phaseSpans session.id phaseRec }
    let agentAttrs : List (String × AttrVal) :=
      [("agent.type", .s subagentType),
       ("session.id", .s session.id),
       ("session.is_subagent", .b true),
       ("session.parent_id", .s (jsOr r.foundParentSessionId session.parentID)),
       ("session.title", .s (session.title.getD "")),
       ("session.task_description", .s (r.taskDescription.getD "")),
       ("project.id", .s session.projectID),
       ("project.directory", .s session.directory)]
      ++ (match beadsTaskId with
          | some b => [("beads.task_id", AttrVal.s b)]
          | none => [])
    let res2 := startSpan st2 ("agent:" ++ subagentType) agentAttrs phaseCtx
    let agentSpan := res2.1
    let st3 := res2.2
    let agentCtx : Ctx := some agentSpan.spanContext
    let agentRec : SessionData :=
      { span := agentSpan, ctx := agentCtx, startTime := now, phase := some phase,
        agentType := some subagentType, agentMode := none, modelId := none,
        beadsTaskId := beadsTaskId, lastKnownAgentName := none, lastKnownModelId := none,
        toolAggregate := createToolAggregate, messageCount := 0,
        cumulativeInputTokens := 0, cumulativeOutputTokens := 0 }
    { st3 with sessionSpans := alSet st3.sessionSpans session.id agentRec }
  else
    let mainAttrs : List (String × AttrVal) :=
      [("session.id", .s session.id),
       ("session.title", .s (session.title.getD "")),
       ("session.is_subagent", .b false),
       ("project.id", .s session.projectID),
       ("project.directory", .s session.directory),
       ("git.branch", .s gitBranch),
       ("git.commit", .s gitCommit),
       ("plugin.version", .s PLUGIN_VERSION)]
      ++ (match beadsTaskId with
          | some b => [("beads.task_id", AttrVal.s b)]
          | none => [])
    let res := startSpan st0 "session:main" mainAttrs none
    let span := res.1
    let st1 := res.2
    let ctx : Ctx := some span.spanContext
    let mainRec : SessionData :=
      { span := span, ctx := ctx, startTime := now, phase := none, agentType := none,
        agentMode := none, modelId := none, beadsTaskId := beadsTaskId,
        lastKnownAgentName := none, lastKnownModelId := none,
        toolAggregate := createToolAggregate, messageCount := 0,
        cumulativeInputTokens := 0, cumulativeOutputTokens := 0 }
    { st1 with sessionSpans := alSet st1.sessionSpans session.id mainRec }

/-! ## `session.idle` and `session.error` handlers -/

/-- The `session.idle` handler: close the phase span first, then flush the
tool aggregates onto the session span and close it. -/
def handleSessionIdle (st : TraceState) (now : Nat) (sessionID : String) : TraceState :=
  match alGet st.sessionSpans sessionID with
  | some sessionData =>
    let duration := now - sessionData.startTime
    let counts := sessionData.toolAggregate.counts
    let errors := sessionData.toolAggregate.errors
    let totalDurationMs := sessionData.toolAggregate.totalDurationMs
    let executions := sessionData.toolAggregate.executions
    let st1 := (cleanupPhaseSpan st now sessionID true none (some (counts, errors))).1
    let toolsSummary := createToolsSummary counts
    let totalToolCount := totalCount counts
    let st2 := emit st1 (.setAttrs sessionData.span.sid [
      ("session.duration_ms", .n duration),
      ("session.success", .b true),
      ("session.message_count", .n sessionData.messageCount),
      ("session.cumulative_input_tokens", .n sessionData.cumulativeInputTokens),
      ("session.cumulative_output_tokens", .n sessionData.cumulativeOutputTokens),
      ("tools.summary", .s (if toolsSummary = "" then "none" else toolsSummary)),
      ("tools.total_count", .n totalToolCount),
      ("tools.unique_types", .n counts.length),
      ("tools.error_count", .n errors.length),
      ("tools.total_duration_ms", .n totalDurationMs),
      ("tools.executions", .n executions)])
    let st3 := if errors.length > 0 then
        emit st2 (.setAttr sessionData.span.sid "tools.errors_detail" (.errs (errors.take 50)))
      else st2
    let st4 := emit st3 (.setStatus sessionData.span.sid true "")
    let st5 := emit st4 (.endSpan sessionData.span.sid)
    { st5 with sessionSpans := alDelete st5.sessionSpans sessionID }
  | none => cleanupOrphanedPhaseSpan st now sessionID "session_span_missing_on_idle"

/-- A `session.error` payload: `error?.name` and `error?.data?.message`. -/
structure ErrData where
  message : Option String
  deriving DecidableEq, Repr

structure ErrInfo where
  name : Option String
  data : Option ErrData
  deriving DecidableEq, Repr

/-- The `session.error` handler. -/
def handleSessionError (st : TraceState) (now : Nat) (sessionID : Option String)
    (error : Option ErrInfo) : TraceState :=
  if ¬ strTruthy sessionID then st
  else
    let sid := sessionID.getD ""
    let errorName := jsOrS (error.bind (fun e => e.name)) "UnknownError"
    let errorMessage :=
      jsOrS ((error.bind (fun e => e.data)).bind (fun d => d.message)) "Unknown error"
    match alGet st.sessionSpans sid with
    | some sessionData =>
      let duration := now - sessionData.startTime
      let counts := sessionData.toolAggregate.counts
      let errors := sessionData.toolAggregate.errors
      let totalDurationMs := sessionData.toolAggregate.totalDurationMs
      let executions := sessionData.toolAggregate.executions
      let st1 := (cleanupPhaseSpan st now sid false (some errorMessage)
        (some (counts, errors))).1
      let toolsSummary := createToolsSummary counts
      let totalToolCount := totalCount counts
      let st2 := emit st1 (.setAttrs sessionData.span.sid [
        ("session.duration_ms", .n duration),
        ("session.success", .b false),
        ("session.message_count", .n sessionData.messageCount),
        ("session.cumulative_input_tokens", .n sessionData.cumulativeInputTokens),
        ("session.cumulative_output_tokens", .n sessionData.cumulativeOutputTokens),
        ("tools.summary", .s (if toolsSummary = "" then "none" else toolsSummary)),
        ("tools.total_count", .n totalToolCount),
        ("tools.unique_types", .n counts.length),
        ("tools.error_count", .n errors.length),
        ("tools.total_duration_ms", .n totalDurationMs),
        ("tools.executions", .n executions)])
      let st3 := if errors.length > 0 then
          emit st2 (.setAttr sessionData.span.sid "tools.errors_detail" (.errs (errors.take 50)))
        else st2
      let st4 := emit st3 (.setStatus sessionData.span.sid false errorMessage)
      let st5 := match error with
        | some _ =>
          emit (emit st4 (.setAttr sessionData.span.sid "error.name" (.s errorName)))
            (.setAttr sessionData.span.sid "error.message" (.s errorMessage))
        | none => st4
      let st6 := emit st5 (.endSpan sessionData.span.sid)
      { st6 with sessionSpans := alDelete st6.sessionSpans sid }
    | none =>
      cleanupOrphanedPhaseSpan st now sid
        ("session_span_missing_on_error: " ++ errorMessage)

/-! ## `message.part.updated` (tool error path) and `message.updated` -/

/-- The `message.part.updated` handler, which finalizes a tracked tool
execution when the part reports an error status. -/
def handleMessagePartUpdated (st : TraceState) (now : Nat) (partType : String)
    (callID : String) (status : String) (stateError : Option String) : TraceState :=
  if partType ≠ "tool" then st
  else
    match alGet st.toolExecutions callID with
    | none => st
    | some execution =>
      match alGet st.sessionSpans execution.sessionID with
      | some sessionData =>
        if status = "error" then
          let errorMessage := jsOrS stateError "Unknown error"
          let agg := sessionData.toolAggregate
          let sd1 := { sessionData with toolAggregate :=
            { agg with errors := agg.errors ++
                [⟨execution.tool, errorMessage, now, callID, execution.sequenceNumber⟩] } }
          let st1 := { st with sessionSpans := alSet st.sessionSpans execution.sessionID sd1 }
          let st2 := emit st1 (.addEvent sessionData.span.sid "tool.error" [
            ("tool.name", .s execution.tool),
            ("tool.call_id", .s callID),
            ("tool.sequence_number", .n execution.sequenceNumber),
            ("tool.error_message", .s errorMessage)])
          let duration := now - execution.startTime
          let sd2 := { sd1 with toolAggregate :=
            { sd1.toolAggregate with totalDurationMs := agg.totalDurationMs + duration } }
          let st3 := { st2 with sessionSpans := alSet st2.sessionSpans execution.sessionID sd2 }
          { st3 with toolExecutions := alDelete st3.toolExecutions callID }
        else st
      | none => st

/-- Token counts of an assistant message. -/
structure Tokens where
  input : Nat
  output : Nat
  reasoning : Nat
  cacheRead : Nat
  cacheWrite : Nat
  deriving DecidableEq, Repr

/-- A `message.updated` payload (`event.properties.info`). -/
structure MsgInfo where
  role : String
  sessionID : String
  mode : Option String
  modelID : Option String
  providerID : Option String
  tokens : Option Tokens
  deriving DecidableEq, Repr

/-- The `message.updated` handler: track tokens and agent mode. -/
def handleMessageUpdated (st : TraceState) (message : MsgInfo) : TraceState :=
  if message.role ≠ "assistant" then st
  else
    match alGet st.sessionSpans message.sessionID with
    | none => st
    | some sessionData =>
      let sd1 := { sessionData with messageCount := sessionData.messageCount + 1 }
      let p1 : SessionData × TraceState := match message.mode with
        | some m =>
          if m ≠ "" then
            ({ sd1 with agentMode := some m, lastKnownAgentName := some m },
             emit st (.setAttr sessionData.span.sid "agent.mode" (.s m)))
          else (sd1, st)
        | none => (sd1, st)
      let p2 : SessionData × TraceState := match message.modelID with
        | some m =>
          if m ≠ "" then
            ({ p1.1 with modelId := some m, lastKnownModelId := some m },
             emit p1.2 (.setAttr sessionData.span.sid "model.id" (.s m)))
          else p1
        | none => p1
      let p3 : SessionData × TraceState := match message.providerID with
        | some m =>
          if m ≠ "" then
            (p2.1, emit p2.2 (.setAttr sessionData.span.sid "provider.id" (.s m)))
          else p2
        | none => p2
      let p4 : SessionData × TraceState := match message.tokens with
        | some t =>
          let stT := emit (emit (emit (emit (emit p3.2
            (.setAttr sessionData.span.sid "tokens.input" (.n t.input)))
            (.setAttr sessionData.span.sid "tokens.output" (.n t.output)))
            (.setAttr sessionData.span.sid "tokens.reasoning" (.n t.reasoning)))
            (.setAttr sessionData.span.sid "tokens.cache.read" (.n t.cacheRead)))
            (.setAttr sessionData.span.sid "tokens.cache.write" (.n t.cacheWrite))
          ({ p3.1 with
              cumulativeInputTokens := p3.1.cumulativeInputTokens + t.input,
              cumulativeOutputTokens := p3.1.cumulativeOutputTokens + t.output }, stT)
        | none => p3
      { p4.2 with sessionSpans := alSet p4.2.sessionSpans message.sessionID p4.1 }

/-! ## Tool execution hooks -/

/-- The `output.args` object of a tool invocation.  `json` stands for its
`JSON.stringify` serialization. -/
structure ToolArgs where
  subagent_type : Option String
  description : Option String
  json : String
  deriving DecidableEq, Repr

/-- `JSON.stringify(output.args)`.  When `output.args` is absent the real
expression is not a string (the subsequent `.slice` would throw); the hooks
always receive an args object, so the `none` case is unreachable and is
modelled by the literal `"undefined"` for totality. -/
def jsonStringifyArgs : Option ToolArgs → String
  | some a => a.json
  | none => "undefined"

/-- The `argsPreview` computation of `tool.execute.before`: an uncapped
interpolation for `task` calls, the raw `description` when truthy, and
otherwise the JSON serialization sliced to 200 characters. -/
def computeArgsPreview (tool : String) (args : Option ToolArgs) : String :=
  if tool = "task" ∧ args.isSome then
    ((args.bind (fun a => a.subagent_type)).getD "undefined") ++ ": " ++
      ((args.bind (fun a => a.description)).getD "undefined")
  else if strTruthy (args.bind (fun a => a.description)) then
    (args.bind (fun a => a.description)).getD ""
  else jsSlice (jsonStringifyArgs args) 200

/-- The `tool.execute.before` hook. -/
def handleToolBefore (st : TraceState) (now : Nat) (sessionID callID tool : String)
    (args : Option ToolArgs) : TraceState :=
  match alGet st.sessionSpans sessionID with
  | none => st
  | some sessionData =>
    let sequenceNumber := sessionData.toolAggregate.executions + 1
    let agg := sessionData.toolAggregate
    let counts1 := alSet agg.counts tool ((alGet agg.counts tool).getD 0 + 1)
    let sd1 := { sessionData with toolAggregate :=
      { agg with executions := sequenceNumber, counts := counts1 } }
    let st1 := { st with sessionSpans := alSet st.sessionSpans sessionID sd1 }
    let argsPreview := computeArgsPreview tool args
    let st2 := emit st1 (.addEvent sessionData.span.sid ("tool." ++ tool ++ ".start") ([
        ("tool.name", .s tool),
        ("tool.call_id", .s callID),
        ("tool.sequence_number", .n sequenceNumber),
        ("tool.args_preview", .s argsPreview)] ++
      (if tool = "task" ∧ args.isSome then
        [("task.subagent_type", AttrVal.s ((args.bind (fun a => a.subagent_type)).getD "")),
         ("task.description", AttrVal.s ((args.bind (fun a => a.description)).getD ""))]
       else [])))
    let execRec : ToolExecution :=
      { tool := tool, callId := callID, startTime := now,
        sequenceNumber := sequenceNumber, sessionID := sessionID,
        argsPreview := argsPreview }
    let st3 := { st2 with toolExecutions := alSet st2.toolExecutions callID execRec }
    if tool = "task" ∧ strTruthy (args.bind (fun a => a.subagent_type)) then
      let spanContext := sessionData.span.spanContext
      let pendRec : SubagentContext :=
        { subagentType := (args.bind (fun a => a.subagent_type)).getD "",
          parentSessionId := sessionID,
          taskDescription := (args.bind (fun a => a.description)).getD "",
          parentCtx := sessionData.ctx,
          parentSpanContext := spanContext,
          createdAt := now }
      let pendings1 := alSet st3.pendingSubagentContext sessionID pendRec
      let st4 := { st3 with pendingSubagentContext := pendings1 }
      emit st4 (.addEvent sessionData.span.sid "debug.pending_context_stored" [
        ("debug.parent_session_id", .s sessionID),
        ("debug.subagent_type", .s ((args.bind (fun a => a.subagent_type)).getD "")),
        ("debug.parent_trace_id", .s (toString spanContext.traceId)),
        ("debug.parent_span_id", .s (toString spanContext.spanId)),
        ("debug.pending_context_size_after", .n pendings1.length),
        ("debug.session_spans_size", .n st4.sessionSpans.length)])
    else st3

/-- The `tool.execute.after` hook. -/
def handleToolAfter (st : TraceState) (now : Nat) (callID tool : String)
    (outTitle : String) (output : Option String) : TraceState :=
  match alGet st.toolExecutions callID with
  | none => st
  | some execution =>
    match alGet st.sessionSpans execution.sessionID with
    | none => { st with toolExecutions := alDelete st.toolExecutions callID }
    | some sessionData =>
      let duration := now - execution.startTime
      let sd1 := { sessionData with toolAggregate :=
        { sessionData.toolAggregate with totalDurationMs :=
            sessionData.toolAggregate.totalDurationMs + duration } }
      let st1 := { st with sessionSpans := alSet st.sessionSpans execution.sessionID sd1 }
      let st2 := emit st1 (.addEvent sessionData.span.sid ("tool." ++ tool ++ ".end") [
        ("tool.name", .s tool),
        ("tool.call_id", .s callID),
        ("tool.sequence_number", .n execution.sequenceNumber),
        ("tool.duration_ms", .n duration),
        ("tool.title", .s outTitle),
        ("tool.output_length", .n ((output.map String.length).getD 0)),
        ("tool.success", .b true)])
      { st2 with toolExecutions := alDelete st2.toolExecutions callID }

/-! ## TTL garbage collector (`performTTLCleanup`) -/

/-- One step of the session sweep: force-close and evict an expired session. -/
def sessSweepStep (now : Nat) (acc : TraceState) (e : String × SessionData) : TraceState :=
  if now - e.2.startTime > SESSION_TTL_MS then
    let acc1 := emit acc (.setAttrs e.2.span.sid [
      ("session.cleanup_reason", .s "ttl_expired"),
      ("session.age_ms", .n (now - e.2.startTime))])
    let acc2 := emit acc1 (.addEvent e.2.span.sid "cleanup.ttl_expired" [
      ("cleanup.type", .s "session"),
      ("cleanup.age_ms", .n (now - e.2.startTime)),
      ("cleanup.ttl_ms", .n SESSION_TTL_MS)])
    let acc3 := emit acc2 (.setStatus e.2.span.sid false "Session TTL expired")
    let acc4 := emit acc3 (.endSpan e.2.span.sid)
    { acc4 with sessionSpans := alDelete acc4.sessionSpans e.1 }
  else acc

/-- One step of the phase sweep. -/
def phaseSweepStep (now : Nat) (acc : TraceState) (e : String × PhaseData) : TraceState :=
  if now - e.2.startTime > SESSION_TTL_MS then
    let acc1 := emit acc (.setAttrs e.2.span.sid [
      ("phase.cleanup_reason", .s "ttl_expired"),
      ("phase.age_ms", .n (now - e.2.startTime))])
    let acc2 := emit acc1 (.addEvent e.2.span.sid "cleanup.ttl_expired" [
      ("cleanup.type", .s "phase"),
      ("cleanup.age_ms", .n (now - e.2.startTime)),
      ("cleanup.ttl_ms", .n SESSION_TTL_MS)])
    let acc3 := emit acc2 (.setStatus e.2.span.sid false "Phase TTL expired")
    let acc4 := emit acc3 (.endSpan e.2.span.sid)
    { acc4 with phaseSpans := alDelete acc4.phaseSpans e.1 }
  else acc

/-- One step of the tool-execution sweep: drop an expired execution, leaving a
breadcrumb event on the owning session span when that session still exists. -/
def toolSweepStep (now : Nat) (acc : TraceState) (e : String × ToolExecution) : TraceState :=
  if now - e.2.startTime > TOOL_TTL_MS then
    let acc1 := match alGet acc.sessionSpans e.2.sessionID with
      | some sessionData =>
        emit acc (.addEvent sessionData.span.sid "cleanup.tool_ttl_expired" [
          ("cleanup.type", .s "tool_execution"),
          ("tool.name", .s e.2.tool),
          ("tool.call_id", .s e.1),
          ("cleanup.age_ms", .n (now - e.2.startTime)),
          ("cleanup.ttl_ms", .n TOOL_TTL_MS)])
      | none => acc
    { acc1 with toolExecutions := alDelete acc1.toolExecutions e.1 }
  else acc

/-- One step of the pending-handoff sweep. -/
def pendingSweepStep (now : Nat) (acc : TraceState) (e : String × SubagentContext) :
    TraceState :=
  if now - e.2.createdAt > PENDING_CONTEXT_TTL_MS then
    let acc1 := match alGet acc.sessionSpans e.2.parentSessionId with
      | some parentSession =>
        emit acc (.addEvent parentSession.span.sid "cleanup.pending_context_ttl_expired" [
          ("cleanup.type", .s "pending_subagent_context"),
          ("cleanup.subagent_type", .s e.2.subagentType),
          ("cleanup.age_ms", .n (now - e.2.createdAt)),
          ("cleanup.ttl_ms", .n PENDING_CONTEXT_TTL_MS)])
      | none => acc
    { acc1 with pendingSubagentContext := alDelete acc1.pendingSubagentContext e.1 }
  else acc

def sweepSessions (now : Nat) (l : List (String × SessionData)) (st : TraceState) :
    TraceState :=
  l.foldl (sessSweepStep now) st

def sweepPhases (now : Nat) (l : List (String × PhaseData)) (st : TraceState) :
    TraceState :=
  l.foldl (phaseSweepStep now) st

def sweepTools (now : Nat) (l : List (String × ToolExecution)) (st : TraceState) :
    TraceState :=
  l.foldl (toolSweepStep now) st

def sweepPendings (now : Nat) (l : List (String × SubagentContext)) (st : TraceState) :
    TraceState :=
  l.foldl (pendingSweepStep now) st

/-- `performTTLCleanup`: the four table sweeps, in source order (sessions,
phases, tool executions, pending handoff contexts). -/
def performTTLCleanup (st : TraceState) (now : Nat) : TraceState :=
  let st1 := sweepSessions now st.sessionSpans st
  let st2 := sweepPhases now st1.phaseSpans st1
  let st3 := sweepTools now st2.toolExecutions st2
  sweepPendings now st3.pendingSubagentContext st3

/-! ## Observational helpers over the span-action log -/

/-- Number of spans started in a log segment. -/
def countStarts (l : List SpanAction) : Nat :=
  (l.filter (fun a => match a with | .start _ _ _ _ _ => true | _ => false)).length

/-- The span ids of `endSpan` actions, in chronological order. -/
def endOrder (l : List SpanAction) : List Nat :=
  l.filterMap (fun a => match a with | .endSpan s => some s | _ => none)

/-- The parent span ids passed to `startSpan`, in chronological order. -/
def startParents (l : List SpanAction) : List (Option Nat) :=
  l.filterMap (fun a => match a with | .start _ _ _ p _ => some p | _ => none)

/-- `a` is ended strictly before `b` within the log segment `l`. -/
def endsBeforeIn (l : List SpanAction) (a b : Nat) : Prop :=
  ∃ i j : Nat, i < j ∧ l.get? i = some (.endSpan a) ∧ l.get? j = some (.endSpan b)

/-- The keys of a table are duplicate-free (always true of a JS `Map`). -/
def nodupKeys {α : Type} (l : List (String × α)) : Prop :=
  (l.map (fun e => e.1)).Nodup

instance {α : Type} (l : List (String × α)) : Decidable (nodupKeys l) := by
  unfold nodupKeys
  infer_instance

/-- The breadcrumb event the GC adds for a dropped tool execution. -/
def toolBreadcrumbAction (now : Nat) (cid : String) (ex : ToolExecution) (sid : Nat) :
    SpanAction :=
  .addEvent sid "cleanup.tool_ttl_expired" [
    ("cleanup.type", .s "tool_execution"),
    ("tool.name", .s ex.tool),
    ("tool.call_id", .s cid),
    ("cleanup.age_ms", .n (now - ex.startTime)),
    ("cleanup.ttl_ms", .n TOOL_TTL_MS)]

/-- The breadcrumb event the GC adds for a dropped handoff record. -/
def pendingBreadcrumbAction (now : Nat) (pend : SubagentContext) (sid : Nat) : SpanAction :=
  .addEvent sid "cleanup.pending_context_ttl_expired" [
    ("cleanup.type", .s "pending_subagent_context"),
    ("cleanup.subagent_type", .s pend.subagentType),
    ("cleanup.age_ms", .n (now - pend.createdAt)),
    ("cleanup.ttl_ms", .n PENDING_CONTEXT_TTL_MS)]

/-- Does an action carry the tool-expiry breadcrumb for call id `cid`? -/
def isToolBreadcrumbFor (cid : String) (a : SpanAction) : Bool :=
  match a with
  | .addEvent _ n attrs =>
    n = "cleanup.tool_ttl_expired" && attrs.any (fun p => p = ("tool.call_id", AttrVal.s cid))
  | _ => false

/-- Does a log segment contain the tool-expiry breadcrumb for `cid`? -/
def hasToolBreadcrumbFor (cid : String) (l : List SpanAction) : Bool :=
  l.any (isToolBreadcrumbFor cid)

/-- Is an action a handoff-expiry breadcrumb (on any span)? -/
def isPendingBreadcrumb (a : SpanAction) : Bool :=
  match a with
  | .addEvent _ n _ => n = "cleanup.pending_context_ttl_expired"
  | _ => false

/-! ## The per-table action segments emitted by one GC sweep -/

/-- The actions the session sweep emits, in iteration order. -/
def sessSweepLog (now : Nat) (l : List (String × SessionData)) : List SpanAction :=
  l.flatMap (fun e =>
    if now - e.2.startTime > SESSION_TTL_MS then
      [.setAttrs e.2.span.sid [
        ("session.cleanup_reason", .s "ttl_expired"),
        ("session.age_ms", .n (now - e.2.startTime))],
       .addEvent e.2.span.sid "cleanup.ttl_expired" [
        ("cleanup.type", .s "session"),
        ("cleanup.age_ms", .n (now - e.2.startTime)),
        ("cleanup.ttl_ms", .n SESSION_TTL_MS)],
       .setStatus e.2.span.sid false "Session TTL expired",
       .endSpan e.2.span.sid]
    else [])

/-- The actions the phase sweep emits. -/
def phaseSweepLog (now : Nat) (l : List (String × PhaseData)) : List SpanAction :=
  l.flatMap (fun e =>
    if now - e.2.startTime > SESSION_TTL_MS then
      [.setAttrs e.2.span.sid [
        ("phase.cleanup_reason", .s "ttl_expired"),
        ("phase.age_ms", .n (now - e.2.startTime))],
       .addEvent e.2.span.sid "cleanup.ttl_expired" [
        ("cleanup.type", .s "phase"),
        ("cleanup.age_ms", .n (now - e.2.startTime)),
        ("cleanup.ttl_ms", .n SESSION_TTL_MS)],
       .setStatus e.2.span.sid false "Phase TTL expired",
       .endSpan e.2.span.sid]
    else [])

/-- The breadcrumbs the tool-execution sweep emits, given the (invariant)
session table it consults. -/
def toolSweepLog (now : Nat) (sessions : List (String × SessionData))
    (l : List (String × ToolExecution)) : List SpanAction :=
  l.flatMap (fun e =>
    if now - e.2.startTime > TOOL_TTL_MS then
      match alGet sessions e.2.sessionID with
      | some sessionData => [toolBreadcrumbAction now e.1 e.2 sessionData.span.sid]
      | none => []
    else [])

/-- The breadcrumbs the pending-handoff sweep emits. -/
def pendingSweepLog (now : Nat) (sessions : List (String × SessionData))
    (l : List (String × SubagentContext)) : List SpanAction :=
  l.flatMap (fun e =>
    if now - e.2.createdAt > PENDING_CONTEXT_TTL_MS then
      match alGet sessions e.2.parentSessionId with
      | some parentSession => [pendingBreadcrumbAction now e.2 parentSession.span.sid]
      | none => []
    else [])

/-! ## Concrete scenario states used by counterexamples and witnesses -/

/-- A root session "u1" with one live `read` execution "c1" (C6 scenario). -/
def C6base : TraceState :=
  handleToolBefore (handleSessionCreated initState 0 ⟨"u1", none, some "root task", "p", "d"⟩)
    1 "u1" "c1" "read" none

/-- A root session "u1" followed by a `read` tool start with call id "c1". -/
def C7state : TraceState :=
  handleToolBefore (handleSessionCreated initState 0 ⟨"u1", none, some "root", "p", "d"⟩)
    1 "u1" "c1" "read" none

/-- A root session "u1" on its own. -/
def C8base : TraceState :=
  handleSessionCreated initState 0 ⟨"u1", none, some "root", "p", "d"⟩

/-- A 250-character description. -/
def C8longDesc : String := ⟨List.replicate 250 'a'⟩

/-- One tool-start followed by an error signal for call id `"c" ++ toString n`. -/
def C9errStep (st : TraceState) (n : Nat) : TraceState :=
  handleMessagePartUpdated
    (handleToolBefore st 0 "u1" ("c" ++ toString n) "bash" none)
    0 "tool" ("c" ++ toString n) "error" (some "boom")

/-- A root session "u1" on its own (C9 scenario base). -/
def C9base : TraceState :=
  handleSessionCreated initState 0 ⟨"u1", none, some "root", "p", "d"⟩

/-- 51 tool invocations on "u1", each ending in an error signal. -/
def C9state : TraceState := (List.range 51).foldl C9errStep C9base

/-- A root session "u1" that has dispatched a `task` tool call, leaving a
pending handoff record keyed by "u1". -/
def C5state : TraceState :=
  handleToolBefore (handleSessionCreated initState 0 ⟨"u1", none, some "root task", "p", "d"⟩)
    1 "u1" "c1" "task" (some ⟨some "planner", some "do X", "x"⟩)

/-- A subagent session "u2" (phase span 0 wrapping agent span 1), created at
time 0 (C4 scenario base). -/
def C4base : TraceState :=
  handleSessionCreated initState 0 ⟨"u2", none, some "@planner subagent", "p", "d"⟩

/-- One GC sweep over `C4base` after the session TTL has elapsed. -/
def C4state : TraceState := performTTLCleanup C4base (SESSION_TTL_MS + 1)

/-- A main session "u1" with no agent type (C10 scenario base). -/
def C10base : TraceState :=
  handleSessionCreated initState 0 ⟨"u1", none, some "root task", "p", "d"⟩

/-- A delegated-looking session created with a dead parent reference on the
empty state (C2 scenario). -/
def C2state : TraceState :=
  handleSessionCreated initState 0 ⟨"u2", some "u1", some "@planner subagent", "p", "d"⟩

/-- A first `session.created` event for "u1". -/
def C1state1 : TraceState :=
  handleSessionCreated initState 0 ⟨"u1", none, some "root task", "p", "d"⟩

/-- A duplicate `session.created` event for "u1" on top of the first. -/
def C1state2 : TraceState :=
  handleSessionCreated C1state1 5 ⟨"u1", none, some "root task", "p", "d"⟩

/-! ## General lemmas: association lists -/

theorem alGet_nil {α : Type} (k : String) : alGet ([] : List (String × α)) k = none := rfl

theorem alGet_cons {α : Type} (e : String × α) (t : List (String × α)) (k : String) :
    alGet (e :: t) k = if e.1 = k then some e.2 else alGet t k := by
  by_cases h : e.1 = k <;> simp [alGet, List.find?, h]

theorem alGet_set_self {α : Type} (l : List (String × α)) (k : String) (v : α) :
    alGet (alSet l k v) k = some v := by
  induction l with
  | nil => simp [alSet, alGet_cons]
  | cons e t ih =>
    by_cases h : e.1 = k
    · simp [alSet, h, alGet_cons]
    · simp [alSet, h, alGet_cons, ih]

theorem alGet_set_ne {α : Type} (l : List (String × α)) (k k' : String) (v : α)
    (h : k' ≠ k) : alGet (alSet l k v) k' = alGet l k' := by
  have hk : ¬ (k = k') := fun hh => h hh.symm
  induction l with
  | nil => simp [alSet, alGet_cons, alGet_nil, hk]
  | cons e t ih =>
    by_cases he : e.1 = k
    · subst he
      simp [alSet, alGet_cons, hk]
    · simp only [alSet, if_neg he, alGet_cons, ih]

theorem alGet_delete_self {α : Type} (l : List (String × α)) (k : String) :
    alGet (alDelete l k) k = none := by
  induction l with
  | nil => rfl
  | cons e t ih =>
    by_cases h : e.1 = k
    · simpa [alDelete, h, List.filter] using ih
    · simpa [alDelete, h, List.filter, alGet_cons] using ih

theorem alGet_delete_ne {α : Type} (l : List (String × α)) (k k' : String)
    (h : k' ≠ k) : alGet (alDelete l k) k' = alGet l k' := by
  induction l with
  | nil => rfl
  | cons e t ih =>
    by_cases he : e.1 = k
    · subst he
      have hk : ¬ (e.1 = k') := fun hh => h hh.symm
      simp only [alDelete, List.filter, decide_not] at ih ⊢
      simp [alGet_cons, hk, ih]
    · simp only [alDelete, List.filter, decide_not] at ih ⊢
      by_cases hk : e.1 = k'
      · simp [he, alGet_cons, hk, h]
      · simp [he, alGet_cons, hk, h, ih]

theorem alGet_eq_some_mem {α : Type} {l : List (String × α)} {k : String} {v : α}
    (h : alGet l k = some v) : (k, v) ∈ l := by
  unfold alGet at h
  cases hf : l.find? (fun e => e.1 = k) with
  | none => rw [hf] at h; exact absurd h (by simp)
  | some e =>
    rw [hf] at h
    have hm := List.mem_of_find?_eq_some hf
    have hp := List.find?_some hf
    simp only [decide_eq_true_eq] at hp
    simp only [Option.some.injEq] at h
    have : e = (k, v) := by
      cases e; simp_all
    rw [this] at hm; exact hm

theorem alGet_delete_of_none {α : Type} (l : List (String × α)) (k k' : String)
    (h : alGet l k' = none) : alGet (alDelete l k) k' = none := by
  by_cases hk : k' = k
  · subst hk; exact alGet_delete_self l k'
  · rw [alGet_delete_ne l k k' hk]; exact h

/-! ## General lemmas: string slicing and span creation -/

theorem jsSlice_length_le (s : String) (n : Nat) : (jsSlice s n).length ≤ n := by
  simp only [jsSlice, String.length, List.length_take]
  exact Nat.min_le_left _ _

theorem startSpan_fst_sid (st : TraceState) (name : String)
    (attrs : List (String × AttrVal)) (p : Ctx) :
    (startSpan st name attrs p).1.sid = st.nextSpanId := by
  cases p <;> rfl

theorem startSpan_snd_nextSpanId (st : TraceState) (name : String)
    (attrs : List (String × AttrVal)) (p : Ctx) :
    (startSpan st name attrs p).2.nextSpanId = st.nextSpanId + 1 := by
  cases p <;> rfl

theorem startSpan_snd_sessionSpans (st : TraceState) (name : String)
    (attrs : List (String × AttrVal)) (p : Ctx) :
    (startSpan st name attrs p).2.sessionSpans = st.sessionSpans := by
  cases p <;> rfl

theorem startSpan_snd_phaseSpans (st : TraceState) (name : String)
    (attrs : List (String × AttrVal)) (p : Ctx) :
    (startSpan st name attrs p).2.phaseSpans = st.phaseSpans := by
  cases p <;> rfl

theorem startSpan_snd_toolExecutions (st : TraceState) (name : String)
    (attrs : List (String × AttrVal)) (p : Ctx) :
    (startSpan st name attrs p).2.toolExecutions = st.toolExecutions := by
  cases p <;> rfl

theorem startSpan_snd_pending (st : TraceState) (name : String)
    (attrs : List (String × AttrVal)) (p : Ctx) :
    (startSpan st name attrs p).2.pendingSubagentContext = st.pendingSubagentContext := by
  cases p <;> rfl

theorem startSpan_snd_log (st : TraceState) (name : String)
    (attrs : List (String × AttrVal)) (p : Ctx) :
    (startSpan st name attrs p).2.log =
      st.log ++ [SpanAction.start st.nextSpanId name (startSpan st name attrs p).1.traceId
        (match p with | some sc => some sc.spanId | none => none) attrs] := by
  cases p <;> rfl

theorem startSpan_fst_traceId_some (st : TraceState) (name : String)
    (attrs : List (String × AttrVal)) (sc : SpanContext) :
    (startSpan st name attrs (some sc)).1.traceId = sc.traceId := rfl

theorem startSpan_fst_traceId_none (st : TraceState) (name : String)
    (attrs : List (String × AttrVal)) :
    (startSpan st name attrs (none : Ctx)).1.traceId = st.nextTraceId := rfl

/-! ## General lemmas: strategy 1 touches only the pending table -/

theorem strategy1_snd_sessionSpans (st : TraceState) (s : SessInfo) :
    (strategy1 st s).2.sessionSpans = st.sessionSpans := by
  unfold strategy1
  split
  · dsimp only
    cases alGet st.sessionSpans (s.parentID.getD "") <;>
      cases alGet st.pendingSubagentContext (s.parentID.getD "") <;> rfl
  · rfl

theorem strategy1_snd_phaseSpans (st : TraceState) (s : SessInfo) :
    (strategy1 st s).2.phaseSpans = st.phaseSpans := by
  unfold strategy1
  split
  · dsimp only
    cases alGet st.sessionSpans (s.parentID.getD "") <;>
      cases alGet st.pendingSubagentContext (s.parentID.getD "") <;> rfl
  · rfl

theorem strategy1_snd_toolExecutions (st : TraceState) (s : SessInfo) :
    (strategy1 st s).2.toolExecutions = st.toolExecutions := by
  unfold strategy1
  split
  · dsimp only
    cases alGet st.sessionSpans (s.parentID.getD "") <;>
      cases alGet st.pendingSubagentContext (s.parentID.getD "") <;> rfl
  · rfl

theorem strategy1_snd_nextSpanId (st : TraceState) (s : SessInfo) :
    (strategy1 st s).2.nextSpanId = st.nextSpanId := by
  unfold strategy1
  split
  · dsimp only
    cases alGet st.sessionSpans (s.parentID.getD "") <;>
      cases alGet st.pendingSubagentContext (s.parentID.getD "") <;> rfl
  · rfl

theorem strategy1_snd_nextTraceId (st : TraceState) (s : SessInfo) :
    (strategy1 st s).2.nextTraceId = st.nextTraceId := by
  unfold strategy1
  split
  · dsimp only
    cases alGet st.sessionSpans (s.parentID.getD "") <;>
      cases alGet st.pendingSubagentContext (s.parentID.getD "") <;> rfl
  · rfl

theorem strategy1_snd_log (st : TraceState) (s : SessInfo) :
    (strategy1 st s).2.log = st.log := by
  unfold strategy1
  split
  · dsimp only
    cases alGet st.sessionSpans (s.parentID.getD "") <;>
      cases alGet st.pendingSubagentContext (s.parentID.getD "") <;> rfl
  · rfl

theorem countStarts_append (l1 l2 : List SpanAction) :
    countStarts (l1 ++ l2) = countStarts l1 + countStarts l2 := by
  simp [countStarts, List.filter_append]

/-! ## General lemmas: outcomes of the two resolution strategies -/

theorem strategy1_skip (st : TraceState) (s : SessInfo)
    (h : strTruthy s.parentID = false) :
    strategy1 st s = (emptyResolution, st) := by
  unfold strategy1
  rw [if_neg (by simp [h])]

theorem strategy1_pending_found (st : TraceState) (s : SessInfo) (p : String)
    (pend : SubagentContext) (h1 : s.parentID = some p) (h2 : p ≠ "")
    (h3 : alGet st.pendingSubagentContext p = some pend) :
    (strategy1 st s).1.subagentType = some pend.subagentType ∧
    (strategy1 st s).1.taskDescription = some pend.taskDescription ∧
    (strategy1 st s).1.parentSpanContext = some pend.parentSpanContext ∧
    (strategy1 st s).1.foundParentSessionId = some p ∧
    (strategy1 st s).2.pendingSubagentContext = alDelete st.pendingSubagentContext p := by
  unfold strategy1
  rw [if_pos (by simp [h1, strTruthy, h2])]
  rw [h1]
  dsimp only [Option.getD_some]
  rw [h3]
  cases alGet st.sessionSpans p <;> exact ⟨rfl, rfl, rfl, rfl, rfl⟩

theorem strategy1_nothing_found (st : TraceState) (s : SessInfo) (p : String)
    (h1 : s.parentID = some p) (h2 : p ≠ "")
    (hs : alGet st.sessionSpans p = none)
    (hp : alGet st.pendingSubagentContext p = none) :
    strategy1 st s =
      ({ emptyResolution with s1HasParentId := true, foundParentSessionId := some p }, st) := by
  unfold strategy1
  rw [if_pos (by simp [h1, strTruthy, h2])]
  rw [h1]
  dsimp only [Option.getD_some]
  rw [hs, hp]

theorem strategy2_skip (sessions : List (String × SessionData)) (title : Option String)
    (r : Resolution) (h : strTruthy r.subagentType = true) :
    strategy2 sessions title r = r := by
  unfold strategy2
  rw [if_pos h]

theorem strategy2_title_no_main (sessions : List (String × SessionData))
    (title : Option String) (r : Resolution) (t : String)
    (h : strTruthy r.subagentType = false)
    (hex : extractSubagentTypeFromTitle title = some t) (ht : t ≠ "")
    (hfind : sessions.find? (fun e => !(strTruthy e.2.agentType)) = none) :
    strategy2 sessions title r =
      { r with s2ExtractedFromTitle := true, subagentType := some t } := by
  unfold strategy2
  rw [if_neg (by simp [h]), hex]
  dsimp only
  rw [if_neg ht, hfind]

theorem strategy2_title_main_found (sessions : List (String × SessionData))
    (title : Option String) (r : Resolution) (t : String) (e : String × SessionData)
    (h : strTruthy r.subagentType = false)
    (hex : extractSubagentTypeFromTitle title = some t) (ht : t ≠ "")
    (hfind : sessions.find? (fun e => !(strTruthy e.2.agentType)) = some e) :
    strategy2 sessions title r =
      { r with s2ExtractedFromTitle := true, subagentType := some t,
               s2FoundViaIteration := true, parentSpan := some e.2.span,
               parentSpanContext := some e.2.span.spanContext,
               foundParentSessionId := some e.1 } := by
  unfold strategy2
  rw [if_neg (by simp [h]), hex]
  dsimp only
  rw [if_neg ht, hfind]

theorem countStarts_start_singleton (sid : Nat) (n : String) (t : Nat) (p : Option Nat)
    (attrs : List (String × AttrVal)) :
    countStarts [SpanAction.start sid n t p attrs] = 1 := rfl

/-! ## General lemmas: the GC sweep steps -/

theorem sessSweepStep_log (now : Nat) (acc : TraceState) (e : String × SessionData) :
    (sessSweepStep now acc e).log = acc.log ++ sessSweepLog now [e] := by
  unfold sessSweepStep sessSweepLog
  split
  · simp [emit, *]
  · simp [*]

theorem sessSweepStep_sessionSpans (now : Nat) (acc : TraceState) (e : String × SessionData) :
    (sessSweepStep now acc e).sessionSpans =
      if now - e.2.startTime > SESSION_TTL_MS then alDelete acc.sessionSpans e.1
      else acc.sessionSpans := by
  unfold sessSweepStep
  split <;> simp [emit, *]

theorem sessSweepStep_phaseSpans (now : Nat) (acc : TraceState) (e : String × SessionData) :
    (sessSweepStep now acc e).phaseSpans = acc.phaseSpans := by
  unfold sessSweepStep; split <;> rfl

theorem sessSweepStep_toolExecutions (now : Nat) (acc : TraceState) (e : String × SessionData) :
    (sessSweepStep now acc e).toolExecutions = acc.toolExecutions := by
  unfold sessSweepStep; split <;> rfl

theorem sessSweepStep_pending (now : Nat) (acc : TraceState) (e : String × SessionData) :
    (sessSweepStep now acc e).pendingSubagentContext = acc.pendingSubagentContext := by
  unfold sessSweepStep; split <;> rfl

theorem phaseSweepStep_log (now : Nat) (acc : TraceState) (e : String × PhaseData) :
    (phaseSweepStep now acc e).log = acc.log ++ phaseSweepLog now [e] := by
  unfold phaseSweepStep phaseSweepLog
  split
  · simp [emit, *]
  · simp [*]

theorem phaseSweepStep_phaseSpans (now : Nat) (acc : TraceState) (e : String × PhaseData) :
    (phaseSweepStep now acc e).phaseSpans =
      if now - e.2.startTime > SESSION_TTL_MS then alDelete acc.phaseSpans e.1
      else acc.phaseSpans := by
  unfold phaseSweepStep
  split <;> simp [emit, *]

theorem phaseSweepStep_sessionSpans (now : Nat) (acc : TraceState) (e : String × PhaseData) :
    (phaseSweepStep now acc e).sessionSpans = acc.sessionSpans := by
  unfold phaseSweepStep; split <;> rfl

theorem phaseSweepStep_toolExecutions (now : Nat) (acc : TraceState) (e : String × PhaseData) :
    (phaseSweepStep now acc e).toolExecutions = acc.toolExecutions := by
  unfold phaseSweepStep; split <;> rfl

theorem phaseSweepStep_pending (now : Nat) (acc : TraceState) (e : String × PhaseData) :
    (phaseSweepStep now acc e).pendingSubagentContext = acc.pendingSubagentContext := by
  unfold phaseSweepStep; split <;> rfl

theorem toolSweepStep_log (now : Nat) (acc : TraceState) (e : String × ToolExecution) :
    (toolSweepStep now acc e).log = acc.log ++ toolSweepLog now acc.sessionSpans [e] := by
  unfold toolSweepStep toolSweepLog
  split
  · cases h : alGet acc.sessionSpans e.2.sessionID <;>
      simp [emit, h, toolBreadcrumbAction, *]
  · simp [*]

theorem toolSweepStep_toolExecutions (now : Nat) (acc : TraceState) (e : String × ToolExecution) :
    (toolSweepStep now acc e).toolExecutions =
      if now - e.2.startTime > TOOL_TTL_MS then alDelete acc.toolExecutions e.1
      else acc.toolExecutions := by
  unfold toolSweepStep
  split
  · cases alGet acc.sessionSpans e.2.sessionID <;> simp [emit, *]
  · simp [*]

theorem toolSweepStep_sessionSpans (now : Nat) (acc : TraceState) (e : String × ToolExecution) :
    (toolSweepStep now acc e).sessionSpans = acc.sessionSpans := by
  unfold toolSweepStep
  split
  · cases alGet acc.sessionSpans e.2.sessionID <;> rfl
  · rfl

theorem toolSweepStep_phaseSpans (now : Nat) (acc : TraceState) (e : String × ToolExecution) :
    (toolSweepStep now acc e).phaseSpans = acc.phaseSpans := by
  unfold toolSweepStep
  split
  · cases alGet acc.sessionSpans e.2.sessionID <;> rfl
  · rfl

theorem toolSweepStep_pending (now : Nat) (acc : TraceState) (e : String × ToolExecution) :
    (toolSweepStep now acc e).pendingSubagentContext = acc.pendingSubagentContext := by
  unfold toolSweepStep
  split
  · cases alGet acc.sessionSpans e.2.sessionID <;> rfl
  · rfl

theorem pendingSweepStep_log (now : Nat) (acc : TraceState) (e : String × SubagentContext) :
    (pendingSweepStep now acc e).log = acc.log ++ pendingSweepLog now acc.sessionSpans [e] := by
  unfold pendingSweepStep pendingSweepLog
  split
  · cases h : alGet acc.sessionSpans e.2.parentSessionId <;>
      simp [emit, h, pendingBreadcrumbAction, *]
  · simp [*]

theorem pendingSweepStep_pending (now : Nat) (acc : TraceState) (e : String × SubagentContext) :
    (pendingSweepStep now acc e).pendingSubagentContext =
      if now - e.2.createdAt > PENDING_CONTEXT_TTL_MS then
        alDelete acc.pendingSubagentContext e.1
      else acc.pendingSubagentContext := by
  unfold pendingSweepStep
  split
  · cases alGet acc.sessionSpans e.2.parentSessionId <;> simp [emit, *]
  · simp [*]

theorem pendingSweepStep_sessionSpans (now : Nat) (acc : TraceState)
    (e : String × SubagentContext) :
    (pendingSweepStep now acc e).sessionSpans = acc.sessionSpans := by
  unfold pendingSweepStep
  split
  · cases alGet acc.sessionSpans e.2.parentSessionId <;> rfl
  · rfl

theorem pendingSweepStep_phaseSpans (now : Nat) (acc : TraceState)
    (e : String × SubagentContext) :
    (pendingSweepStep now acc e).phaseSpans = acc.phaseSpans := by
  unfold pendingSweepStep
  split
  · cases alGet acc.sessionSpans e.2.parentSessionId <;> rfl
  · rfl

theorem pendingSweepStep_toolExecutions (now : Nat) (acc : TraceState)
    (e : String × SubagentContext) :
    (pendingSweepStep now acc e).toolExecutions = acc.toolExecutions := by
  unfold pendingSweepStep
  split
  · cases alGet acc.sessionSpans e.2.parentSessionId <;> rfl
  · rfl

/-! ## General lemmas: the GC sweep folds -/

theorem sweepSessions_log (now : Nat) (l : List (String × SessionData)) (st : TraceState) :
    (sweepSessions now l st).log = st.log ++ sessSweepLog now l := by
  induction l generalizing st with
  | nil => simp [sweepSessions, sessSweepLog]
  | cons e tl ih =>
    show (sweepSessions now tl (sessSweepStep now st e)).log = _
    rw [ih, sessSweepStep_log]
    simp [sessSweepLog]

theorem sweepSessions_phaseSpans (now : Nat) (l : List (String × SessionData))
    (st : TraceState) : (sweepSessions now l st).phaseSpans = st.phaseSpans := by
  induction l generalizing st with
  | nil => rfl
  | cons e tl ih =>
    show (sweepSessions now tl (sessSweepStep now st e)).phaseSpans = _
    rw [ih, sessSweepStep_phaseSpans]

theorem sweepSessions_toolExecutions (now : Nat) (l : List (String × SessionData))
    (st : TraceState) : (sweepSessions now l st).toolExecutions = st.toolExecutions := by
  induction l generalizing st with
  | nil => rfl
  | cons e tl ih =>
    show (sweepSessions now tl (sessSweepStep now st e)).toolExecutions = _
    rw [ih, sessSweepStep_toolExecutions]

theorem sweepSessions_pending (now : Nat) (l : List (String × SessionData))
    (st : TraceState) :
    (sweepSessions now l st).pendingSubagentContext = st.pendingSubagentContext := by
  induction l generalizing st with
  | nil => rfl
  | cons e tl ih =>
    show (sweepSessions now tl (sessSweepStep now st e)).pendingSubagentContext = _
    rw [ih, sessSweepStep_pending]

theorem sweepSessions_sessions_none (now : Nat) (l : List (String × SessionData))
    (st : TraceState) (k : String) (h : alGet st.sessionSpans k = none) :
    alGet (sweepSessions now l st).sessionSpans k = none := by
  induction l generalizing st with
  | nil => exact h
  | cons e tl ih =>
    show alGet (sweepSessions now tl (sessSweepStep now st e)).sessionSpans k = none
    refine ih _ ?_
    rw [sessSweepStep_sessionSpans]
    split
    · exact alGet_delete_of_none _ _ _ h
    · exact h

theorem sweepSessions_expired_none (now : Nat) (l : List (String × SessionData))
    (st : TraceState) (k : String) (sd : SessionData) (hm : (k, sd) ∈ l)
    (hexp : now - sd.startTime > SESSION_TTL_MS) :
    alGet (sweepSessions now l st).sessionSpans k = none := by
  induction l generalizing st with
  | nil => cases hm
  | cons e tl ih =>
    show alGet (sweepSessions now tl (sessSweepStep now st e)).sessionSpans k = none
    rcases List.mem_cons.mp hm with heq | htl
    · apply sweepSessions_sessions_none
      rw [sessSweepStep_sessionSpans, ← heq]
      rw [if_pos hexp]
      exact alGet_delete_self _ _
    · exact ih _ htl

theorem sweepPhases_log (now : Nat) (l : List (String × PhaseData)) (st : TraceState) :
    (sweepPhases now l st).log = st.log ++ phaseSweepLog now l := by
  induction l generalizing st with
  | nil => simp [sweepPhases, phaseSweepLog]
  | cons e tl ih =>
    show (sweepPhases now tl (phaseSweepStep now st e)).log = _
    rw [ih, phaseSweepStep_log]
    simp [phaseSweepLog]

theorem sweepPhases_sessionSpans (now : Nat) (l : List (String × PhaseData))
    (st : TraceState) : (sweepPhases now l st).sessionSpans = st.sessionSpans := by
  induction l generalizing st with
  | nil => rfl
  | cons e tl ih =>
    show (sweepPhases now tl (phaseSweepStep now st e)).sessionSpans = _
    rw [ih, phaseSweepStep_sessionSpans]

theorem sweepPhases_toolExecutions (now : Nat) (l : List (String × PhaseData))
    (st : TraceState) : (sweepPhases now l st).toolExecutions = st.toolExecutions := by
  induction l generalizing st with
  | nil => rfl
  | cons e tl ih =>
    show (sweepPhases now tl (phaseSweepStep now st e)).toolExecutions = _
    rw [ih, phaseSweepStep_toolExecutions]

theorem sweepPhases_pending (now : Nat) (l : List (String × PhaseData))
    (st : TraceState) :
    (sweepPhases now l st).pendingSubagentContext = st.pendingSubagentContext := by
  induction l generalizing st with
  | nil => rfl
  | cons e tl ih =>
    show (sweepPhases now tl (phaseSweepStep now st e)).pendingSubagentContext = _
    rw [ih, phaseSweepStep_pending]

theorem sweepPhases_phases_none (now : Nat) (l : List (String × PhaseData))
    (st : TraceState) (k : String) (h : alGet st.phaseSpans k = none) :
    alGet (sweepPhases now l st).phaseSpans k = none := by
  induction l generalizing st with
  | nil => exact h
  | cons e tl ih =>
    show alGet (sweepPhases now tl (phaseSweepStep now st e)).phaseSpans k = none
    refine ih _ ?_
    rw [phaseSweepStep_phaseSpans]
    split
    · exact alGet_delete_of_none _ _ _ h
    · exact h

theorem sweepPhases_expired_none (now : Nat) (l : List (String × PhaseData))
    (st : TraceState) (k : String) (pd : PhaseData) (hm : (k, pd) ∈ l)
    (hexp : now - pd.startTime > SESSION_TTL_MS) :
    alGet (sweepPhases now l st).phaseSpans k = none := by
  induction l generalizing st with
  | nil => cases hm
  | cons e tl ih =>
    show alGet (sweepPhases now tl (phaseSweepStep now st e)).phaseSpans k = none
    rcases List.mem_cons.mp hm with heq | htl
    · apply sweepPhases_phases_none
      rw [phaseSweepStep_phaseSpans, ← heq]
      rw [if_pos hexp]
      exact alGet_delete_self _ _
    · exact ih _ htl

theorem sweepTools_log (now : Nat) (l : List (String × ToolExecution)) (st : TraceState) :
    (sweepTools now l st).log = st.log ++ toolSweepLog now st.sessionSpans l := by
  induction l generalizing st with
  | nil => simp [sweepTools, toolSweepLog]
  | cons e tl ih =>
    show (sweepTools now tl (toolSweepStep now st e)).log = _
    rw [ih, toolSweepStep_log, toolSweepStep_sessionSpans]
    simp [toolSweepLog]

theorem sweepTools_sessionSpans (now : Nat) (l : List (String × ToolExecution))
    (st : TraceState) : (sweepTools now l st).sessionSpans = st.sessionSpans := by
  induction l generalizing st with
  | nil => rfl
  | cons e tl ih =>
    show (sweepTools now tl (toolSweepStep now st e)).sessionSpans = _
    rw [ih, toolSweepStep_sessionSpans]

theorem sweepTools_phaseSpans (now : Nat) (l : List (String × ToolExecution))
    (st : TraceState) : (sweepTools now l st).phaseSpans = st.phaseSpans := by
  induction l generalizing st with
  | nil => rfl
  | cons e tl ih =>
    show (sweepTools now tl (toolSweepStep now st e)).phaseSpans = _
    rw [ih, toolSweepStep_phaseSpans]

theorem sweepTools_pending (now : Nat) (l : List (String × ToolExecution))
    (st : TraceState) :
    (sweepTools now l st).pendingSubagentContext = st.pendingSubagentContext := by
  induction l generalizing st with
  | nil => rfl
  | cons e tl ih =>
    show (sweepTools now tl (toolSweepStep now st e)).pendingSubagentContext = _
    rw [ih, toolSweepStep_pending]

theorem sweepTools_tools_none (now : Nat) (l : List (String × ToolExecution))
    (st : TraceState) (k : String) (h : alGet st.toolExecutions k = none) :
    alGet (sweepTools now l st).toolExecutions k = none := by
  induction l generalizing st with
  | nil => exact h
  | cons e tl ih =>
    show alGet (sweepTools now tl (toolSweepStep now st e)).toolExecutions k = none
    refine ih _ ?_
    rw [toolSweepStep_toolExecutions]
    split
    · exact alGet_delete_of_none _ _ _ h
    · exact h

theorem sweepTools_expired_none (now : Nat) (l : List (String × ToolExecution))
    (st : TraceState) (k : String) (ex : ToolExecution) (hm : (k, ex) ∈ l)
    (hexp : now - ex.startTime > TOOL_TTL_MS) :
    alGet (sweepTools now l st).toolExecutions k = none := by
  induction l generalizing st with
  | nil => cases hm
  | cons e tl ih =>
    show alGet (sweepTools now tl (toolSweepStep now st e)).toolExecutions k = none
    rcases List.mem_cons.mp hm with heq | htl
    · apply sweepTools_tools_none
      rw [toolSweepStep_toolExecutions, ← heq]
      rw [if_pos hexp]
      exact alGet_delete_self _ _
    · exact ih _ htl

theorem sweepPendings_log (now : Nat) (l : List (String × SubagentContext))
    (st : TraceState) :
    (sweepPendings now l st).log = st.log ++ pendingSweepLog now st.sessionSpans l := by
  induction l generalizing st with
  | nil => simp [sweepPendings, pendingSweepLog]
  | cons e tl ih =>
    show (sweepPendings now tl (pendingSweepStep now st e)).log = _
    rw [ih, pendingSweepStep_log, pendingSweepStep_sessionSpans]
    simp [pendingSweepLog]

theorem sweepPendings_sessionSpans (now : Nat) (l : List (String × SubagentContext))
    (st : TraceState) : (sweepPendings now l st).sessionSpans = st.sessionSpans := by
  induction l generalizing st with
  | nil => rfl
  | cons e tl ih =>
    show (sweepPendings now tl (pendingSweepStep now st e)).sessionSpans = _
    rw [ih, pendingSweepStep_sessionSpans]

theorem sweepPendings_phaseSpans (now : Nat) (l : List (String × SubagentContext))
    (st : TraceState) : (sweepPendings now l st).phaseSpans = st.phaseSpans := by
  induction l generalizing st with
  | nil => rfl
  | cons e tl ih =>
    show (sweepPendings now tl (pendingSweepStep now st e)).phaseSpans = _
    rw [ih, pendingSweepStep_phaseSpans]

theorem sweepPendings_toolExecutions (now : Nat) (l : List (String × SubagentContext))
    (st : TraceState) : (sweepPendings now l st).toolExecutions = st.toolExecutions := by
  induction l generalizing st with
  | nil => rfl
  | cons e tl ih =>
    show (sweepPendings now tl (pendingSweepStep now st e)).toolExecutions = _
    rw [ih, pendingSweepStep_toolExecutions]

theorem sweepPendings_pendings_none (now : Nat) (l : List (String × SubagentContext))
    (st : TraceState) (k : String) (h : alGet st.pendingSubagentContext k = none) :
    alGet (sweepPendings now l st).pendingSubagentContext k = none := by
  induction l generalizing st with
  | nil => exact h
  | cons e tl ih =>
    show alGet (sweepPendings now tl (pendingSweepStep now st e)).pendingSubagentContext
      k = none
    refine ih _ ?_
    rw [pendingSweepStep_pending]
    split
    · exact alGet_delete_of_none _ _ _ h
    · exact h

theorem sweepPendings_expired_none (now : Nat) (l : List (String × SubagentContext))
    (st : TraceState) (k : String) (pend : SubagentContext) (hm : (k, pend) ∈ l)
    (hexp : now - pend.createdAt > PENDING_CONTEXT_TTL_MS) :
    alGet (sweepPendings now l st).pendingSubagentContext k = none := by
  induction l generalizing st with
  | nil => cases hm
  | cons e tl ih =>
    show alGet (sweepPendings now tl (pendingSweepStep now st e)).pendingSubagentContext
      k = none
    rcases List.mem_cons.mp hm with heq | htl
    · apply sweepPendings_pendings_none
      rw [pendingSweepStep_pending, ← heq]
      rw [if_pos hexp]
      exact alGet_delete_self _ _
    · exact ih _ htl

/-! ## General lemmas: shape of one whole GC sweep -/

theorem performTTLCleanup_sessionSpans (st : TraceState) (now : Nat) :
    (performTTLCleanup st now).sessionSpans =
      (sweepSessions now st.sessionSpans st).sessionSpans := by
  unfold performTTLCleanup
  dsimp only
  rw [sweepPendings_sessionSpans, sweepTools_sessionSpans, sweepPhases_sessionSpans]

theorem performTTLCleanup_phaseSpans (st : TraceState) (now : Nat) :
    (performTTLCleanup st now).phaseSpans =
      (sweepPhases now st.phaseSpans (sweepSessions now st.sessionSpans st)).phaseSpans := by
  unfold performTTLCleanup
  dsimp only
  rw [sweepPendings_phaseSpans, sweepTools_phaseSpans, sweepSessions_phaseSpans]

theorem performTTLCleanup_toolExecutions (st : TraceState) (now : Nat) :
    (performTTLCleanup st now).toolExecutions =
      (sweepTools now st.toolExecutions
        (sweepPhases now st.phaseSpans (sweepSessions now st.sessionSpans st))).toolExecutions := by
  unfold performTTLCleanup
  dsimp only
  rw [sweepPendings_toolExecutions, sweepPhases_toolExecutions, sweepSessions_toolExecutions,
    sweepSessions_phaseSpans]

theorem performTTLCleanup_pendings (st : TraceState) (now : Nat) :
    (performTTLCleanup st now).pendingSubagentContext =
      (sweepPendings now st.pendingSubagentContext
        (sweepTools now st.toolExecutions
          (sweepPhases now st.phaseSpans
            (sweepSessions now st.sessionSpans st)))).pendingSubagentContext := by
  unfold performTTLCleanup
  dsimp only
  rw [sweepTools_pending, sweepPhases_pending, sweepSessions_pending,
    sweepPhases_toolExecutions, sweepSessions_toolExecutions, sweepSessions_phaseSpans]

theorem performTTLCleanup_log (st : TraceState) (now : Nat) :
    (performTTLCleanup st now).log =
      st.log ++ (sessSweepLog now st.sessionSpans ++ (phaseSweepLog now st.phaseSpans ++
        (toolSweepLog now (sweepSessions now st.sessionSpans st).sessionSpans
            st.toolExecutions ++
         pendingSweepLog now (sweepSessions now st.sessionSpans st).sessionSpans
            st.pendingSubagentContext))) := by
  unfold performTTLCleanup
  dsimp only
  rw [sweepPendings_log, sweepTools_log, sweepPhases_log, sweepSessions_log]
  rw [sweepTools_sessionSpans, sweepPhases_sessionSpans]
  rw [sweepPhases_toolExecutions, sweepSessions_toolExecutions]
  rw [sweepTools_pending, sweepPhases_pending, sweepSessions_pending]
  rw [sweepSessions_phaseSpans]
  simp [List.append_assoc]

theorem performTTLCleanup_dropped_log (st : TraceState) (now : Nat) :
    (performTTLCleanup st now).log.drop st.log.length =
      sessSweepLog now st.sessionSpans ++ (phaseSweepLog now st.phaseSpans ++
        (toolSweepLog now (sweepSessions now st.sessionSpans st).sessionSpans
            st.toolExecutions ++
         pendingSweepLog now (sweepSessions now st.sessionSpans st).sessionSpans
            st.pendingSubagentContext)) := by
  rw [performTTLCleanup_log]
  exact List.drop_left _ _

/-! ## General lemmas: breadcrumb occurrences in the sweep segments -/

theorem nodupKeys_mem_eq {α : Type} {l : List (String × α)} {k : String} {v : α}
    (hn : nodupKeys l) (hm : (k, v) ∈ l) : alGet l k = some v := by
  induction l with
  | nil => cases hm
  | cons e tl ih =>
    rcases List.mem_cons.mp hm with heq | htl
    · rw [← heq, alGet_cons]
      simp
    · have hk : k ∈ tl.map (fun e => e.1) := by
        exact List.mem_map.mpr ⟨(k, v), htl, rfl⟩
      have hne : e.1 ≠ k := by
        intro hc
        subst hc
        exact (List.nodup_cons.mp hn).1 hk
      rw [alGet_cons, if_neg hne]
      exact ih (List.nodup_cons.mp hn).2 htl

theorem hasToolBreadcrumbFor_append (cid : String) (l1 l2 : List SpanAction) :
    hasToolBreadcrumbFor cid (l1 ++ l2) =
      (hasToolBreadcrumbFor cid l1 || hasToolBreadcrumbFor cid l2) := by
  simp [hasToolBreadcrumbFor, List.any_append]

theorem hasToolBreadcrumbFor_sessSweepLog (cid : String) (now : Nat)
    (l : List (String × SessionData)) :
    hasToolBreadcrumbFor cid (sessSweepLog now l) = false := by
  rw [hasToolBreadcrumbFor, List.any_eq_false]
  intro a ha
  obtain ⟨e, _, hae⟩ := List.mem_flatMap.mp ha
  revert hae
  split
  · intro hae
    simp only [List.mem_cons, List.mem_singleton, List.not_mem_nil, or_false] at hae
    rcases hae with h | h | h | h <;> subst h <;> simp [isToolBreadcrumbFor]
  · intro hae
    cases hae

theorem hasToolBreadcrumbFor_phaseSweepLog (cid : String) (now : Nat)
    (l : List (String × PhaseData)) :
    hasToolBreadcrumbFor cid (phaseSweepLog now l) = false := by
  rw [hasToolBreadcrumbFor, List.any_eq_false]
  intro a ha
  obtain ⟨e, _, hae⟩ := List.mem_flatMap.mp ha
  revert hae
  split
  · intro hae
    simp only [List.mem_cons, List.mem_singleton, List.not_mem_nil, or_false] at hae
    rcases hae with h | h | h | h <;> subst h <;> simp [isToolBreadcrumbFor]
  · intro hae
    cases hae

theorem hasToolBreadcrumbFor_pendingSweepLog (cid : String) (now : Nat)
    (sessions : List (String × SessionData)) (l : List (String × SubagentContext)) :
    hasToolBreadcrumbFor cid (pendingSweepLog now sessions l) = false := by
  rw [hasToolBreadcrumbFor, List.any_eq_false]
  intro a ha
  obtain ⟨e, _, hae⟩ := List.mem_flatMap.mp ha
  revert hae
  split
  · cases alGet sessions e.2.parentSessionId with
    | some sd =>
      intro hae
      simp only [List.mem_singleton] at hae
      subst hae
      simp [isToolBreadcrumbFor, pendingBreadcrumbAction]
    | none =>
      intro hae
      cases hae
  · intro hae
    cases hae

theorem hasToolBreadcrumbFor_toolSweepLog (cid : String) (now : Nat)
    (sessions : List (String × SessionData)) (l : List (String × ToolExecution)) :
    hasToolBreadcrumbFor cid (toolSweepLog now sessions l) = true ↔
      ∃ ex, (cid, ex) ∈ l ∧ now - ex.startTime > TOOL_TTL_MS ∧
        (alGet sessions ex.sessionID).isSome = true := by
  constructor
  · intro h
    obtain ⟨a, ha, hpa⟩ := List.any_eq_true.mp h
    obtain ⟨e, hme, hae⟩ := List.mem_flatMap.mp ha
    revert hae
    split
    · next hexp =>
      cases hcs : alGet sessions e.2.sessionID with
      | some sd2 =>
        intro hae
        simp only [List.mem_singleton] at hae
        subst hae
        have hcid : e.1 = cid := by
          simp [isToolBreadcrumbFor, toolBreadcrumbAction] at hpa
          exact hpa
        refine ⟨e.2, ?_, hexp, by rw [hcs]; rfl⟩
        have : e = (cid, e.2) := by
          rw [← hcid]
        rw [← this]
        exact hme
      | none =>
        intro hae
        cases hae
    · intro hae
      cases hae
  · rintro ⟨ex, hm, hexp, hsome⟩
    apply List.any_eq_true.mpr
    cases hcs : alGet sessions ex.sessionID with
    | none => rw [hcs] at hsome; cases hsome
    | some sd2 =>
      refine ⟨toolBreadcrumbAction now cid ex sd2.span.sid, ?_, ?_⟩
      · exact List.mem_flatMap.mpr ⟨(cid, ex), hm, by rw [if_pos hexp, hcs]; simp⟩
      · simp [isToolBreadcrumbFor, toolBreadcrumbAction]

theorem isPendingBreadcrumb_false_sessSweepLog (now : Nat)
    (l : List (String × SessionData)) (a : SpanAction) (ha : a ∈ sessSweepLog now l) :
    isPendingBreadcrumb a = false := by
  obtain ⟨e, _, hae⟩ := List.mem_flatMap.mp ha
  revert hae
  split
  · intro hae
    simp only [List.mem_cons, List.mem_singleton, List.not_mem_nil, or_false] at hae
    rcases hae with h | h | h | h <;> subst h <;> simp [isPendingBreadcrumb]
  · intro hae
    cases hae

theorem isPendingBreadcrumb_false_phaseSweepLog (now : Nat)
    (l : List (String × PhaseData)) (a : SpanAction) (ha : a ∈ phaseSweepLog now l) :
    isPendingBreadcrumb a = false := by
  obtain ⟨e, _, hae⟩ := List.mem_flatMap.mp ha
  revert hae
  split
  · intro hae
    simp only [List.mem_cons, List.mem_singleton, List.not_mem_nil, or_false] at hae
    rcases hae with h | h | h | h <;> subst h <;> simp [isPendingBreadcrumb]
  · intro hae
    cases hae

theorem isPendingBreadcrumb_false_toolSweepLog (now : Nat)
    (sessions : List (String × SessionData)) (l : List (String × ToolExecution))
    (a : SpanAction) (ha : a ∈ toolSweepLog now sessions l) :
    isPendingBreadcrumb a = false := by
  obtain ⟨e, _, hae⟩ := List.mem_flatMap.mp ha
  revert hae
  split
  · cases alGet sessions e.2.sessionID with
    | some sd =>
      intro hae
      simp only [List.mem_singleton] at hae
      subst hae
      simp [isPendingBreadcrumb, toolBreadcrumbAction]
    | none =>
      intro hae
      cases hae
  · intro hae
    cases hae

theorem mem_pendingSweepLog_elim (now : Nat) (sessions : List (String × SessionData))
    (l : List (String × SubagentContext)) (a : SpanAction)
    (ha : a ∈ pendingSweepLog now sessions l) :
    ∃ e sd, e ∈ l ∧ now - (e : String × SubagentContext).2.createdAt >
        PENDING_CONTEXT_TTL_MS ∧
      alGet sessions e.2.parentSessionId = some sd ∧
      a = pendingBreadcrumbAction now e.2 sd.span.sid := by
  obtain ⟨e, hme, hae⟩ := List.mem_flatMap.mp ha
  revert hae
  split
  · next hexp =>
    cases hcs : alGet sessions e.2.parentSessionId with
    | some sd =>
      intro hae
      simp only [List.mem_singleton] at hae
      exact ⟨e, sd, hme, hexp, hcs, hae⟩
    | none =>
      intro hae
      cases hae
  · intro hae
    cases hae

/-! ## Claim C1 -/

/-- C1 counterexample.  The claim says a second unit-created event for a live
id creates no second span and retains the existing record.  After a duplicate
`session.created` for "u1": two spans have been started, the retained record
holds the second span (id 1, not the original 0), and no span has been ended
(the original span is leaked, not retained). -/
theorem C1_counterexample :
    countStarts C1state2.log = 2 ∧
    (alGet C1state1.sessionSpans "u1").map (fun sd => sd.span.sid) = some 0 ∧
    (alGet C1state2.sessionSpans "u1").map (fun sd => sd.span.sid) = some 1 ∧
    endOrder C1state2.log = [] := by
  refine ⟨by decide, by decide, by decide, by decide⟩

/-- C1 (amended): unit creation is not idempotent.  For every state in which
a Unit Record with the event's id is already live, processing a second
unit-created event starts at least one new span and replaces the table entry
with a record holding a fresh span (the previous record's span handle is
discarded without being ended by this handler). -/
theorem C1_theorem (st : TraceState) (now : Nat) (session : SessInfo) (sd : SessionData)
    (hlive : alGet st.sessionSpans session.id = some sd)
    (hbound : sd.span.sid < st.nextSpanId) :
    countStarts st.log < countStarts (handleSessionCreated st now session).log ∧
    (∃ sd', alGet (handleSessionCreated st now session).sessionSpans session.id = some sd' ∧
      sd'.span.sid ≠ sd.span.sid) := by
  unfold handleSessionCreated
  dsimp only
  split
  · constructor
    · simp only [startSpan_snd_log, countStarts_append, strategy1_snd_log,
        countStarts_start_singleton]
      omega
    · refine ⟨_, alGet_set_self _ _ _, ?_⟩
      simp only [startSpan_fst_sid, startSpan_snd_nextSpanId, strategy1_snd_nextSpanId]
      omega
  · constructor
    · simp only [startSpan_snd_log, countStarts_append, strategy1_snd_log,
        countStarts_start_singleton]
      omega
    · refine ⟨_, alGet_set_self _ _ _, ?_⟩
      simp only [startSpan_fst_sid, startSpan_snd_nextSpanId, strategy1_snd_nextSpanId]
      omega

/-- C1 witness: the amended theorem applied to the concrete duplicate-event
scenario. -/
theorem C1_witness :
    countStarts C1state1.log < countStarts C1state2.log ∧
    (∃ sd', alGet C1state2.sessionSpans "u1" = some sd' ∧ sd'.span.sid ≠ 0) := by
  have h := C1_theorem C1state1 5 ⟨"u1", none, some "root task", "p", "d"⟩ _ rfl (by decide)
  exact h

/-! ## Claim C3 -/

/-- C3 counterexample.  The claim says a tool-start signal for a unit with no
live Unit Record lazily opens one, increments the tool count and records a
Tool Execution Record.  On the empty state, `tool.execute.before` for session
"u1" does none of this: it leaves the state exactly as it was, with no session
record for "u1" and no execution record for call "c1". -/
theorem C3_counterexample :
    handleToolBefore initState 0 "u1" "c1" "read" none = initState ∧
    alGet (handleToolBefore initState 0 "u1" "c1" "read" none).sessionSpans "u1" = none ∧
    alGet (handleToolBefore initState 0 "u1" "c1" "read" none).toolExecutions "c1" = none := by
  refine ⟨rfl, rfl, rfl⟩

/-- C3 (amended): for every tool-start signal whose unit id has no live Unit
Record, `tool.execute.before` is a no-op — it returns the state unchanged, so
no Unit Record is lazily opened, no tool count is incremented, and no Tool
Execution Record is created. -/
theorem C3_theorem (st : TraceState) (now : Nat) (sessionID callID tool : String)
    (args : Option ToolArgs) (h : alGet st.sessionSpans sessionID = none) :
    handleToolBefore st now sessionID callID tool args = st := by
  unfold handleToolBefore
  rw [h]

/-- C3 witness: the amended theorem applied at a concrete input. -/
theorem C3_witness :
    handleToolBefore initState 7 "sX" "cX" "bash" none = initState :=
  C3_theorem initState 7 "sX" "cX" "bash" none rfl

/-! ## Claim C5 -/

/-- C5: a Handoff Record is consumed at most once.  When a creation event
resolves the handoff keyed by its (truthy) parent id, the handler reads the
record's fields — the resulting Phase Record carries its delegated-unit type
and attaches to its trace-context snapshot — and deletes it in the same
operation: the Handoff Record for the dispatcher is absent afterward, so no
later creation event can consume it again. -/
theorem C5_theorem (st : TraceState) (now : Nat) (session : SessInfo) (p : String)
    (pend : SubagentContext)
    (h1 : session.parentID = some p) (h2 : p ≠ "")
    (h3 : alGet st.pendingSubagentContext p = some pend)
    (h4 : pend.subagentType ≠ "") :
    alGet (handleSessionCreated st now session).pendingSubagentContext p = none ∧
    (∃ pd, alGet (handleSessionCreated st now session).phaseSpans session.id = some pd ∧
      pd.agentType = pend.subagentType ∧
      pd.span.traceId = pend.parentSpanContext.traceId) := by
  obtain ⟨hsub, htask, hctx, hfound, hpend⟩ := strategy1_pending_found st session p pend h1 h2 h3
  have hskip : strategy2 st.sessionSpans session.title (strategy1 st session).1
      = (strategy1 st session).1 :=
    strategy2_skip _ _ _ (by rw [hsub]; simp [strTruthy, h4])
  unfold handleSessionCreated
  dsimp only
  rw [hskip]
  rw [if_pos (by rw [hsub]; simp [strTruthy, h4])]
  constructor
  · simp only [startSpan_snd_pending, hpend]
    exact alGet_delete_self _ _
  · rw [hctx, hsub]
    simp only [startSpan_snd_phaseSpans]
    exact ⟨_, alGet_set_self _ _ _, rfl, rfl⟩

/-- C5 witness: the theorem applied to a concrete dispatcher/delegate pair. -/
theorem C5_witness :
    alGet (handleSessionCreated C5state 2
        ⟨"u2", some "u1", some "whatever", "p", "d"⟩).pendingSubagentContext "u1" = none ∧
    (∃ pd, alGet (handleSessionCreated C5state 2
        ⟨"u2", some "u1", some "whatever", "p", "d"⟩).phaseSpans "u2" = some pd ∧
      pd.agentType = "planner" ∧ pd.span.traceId = 0) := by
  exact C5_theorem C5state 2 ⟨"u2", some "u1", some "whatever", "p", "d"⟩ "u1"
    ⟨"planner", "u1", "do X", some ⟨0, 0⟩, ⟨0, 0⟩, 1⟩ rfl (by decide) rfl (by decide)

/-! ## Claim C10 -/

/-- C10: when a unit-created event carries no usable parent id but its title
matches the delegated-unit lexical pattern, the engine selects as parent the
first live Unit Record in table iteration order with no delegated-unit-type:
the Phase span starts in that record's trace (with that record's span as
parent).  If no such record exists, the Phase span is started with no parent
context — a fresh trace — and no parent record is created (every other key's
binding is untouched). -/
theorem C10_theorem (st : TraceState) (now : Nat) (session : SessInfo) (t : String)
    (hpid : strTruthy session.parentID = false)
    (hex : extractSubagentTypeFromTitle session.title = some t) (ht : t ≠ "") :
    (∀ k psd, st.sessionSpans.find? (fun e => !(strTruthy e.2.agentType)) = some (k, psd) →
      ∃ pd, alGet (handleSessionCreated st now session).phaseSpans session.id = some pd ∧
        pd.span.traceId = psd.span.traceId ∧
        (∃ attrs, SpanAction.start pd.span.sid ("phase:" ++ getPhaseForAgent t)
          psd.span.traceId (some psd.span.sid) attrs
            ∈ (handleSessionCreated st now session).log)) ∧
    (st.sessionSpans.find? (fun e => !(strTruthy e.2.agentType)) = none →
      (∃ pd, alGet (handleSessionCreated st now session).phaseSpans session.id = some pd ∧
        pd.span.traceId = st.nextTraceId ∧
        (∃ attrs, SpanAction.start pd.span.sid ("phase:" ++ getPhaseForAgent t)
          st.nextTraceId none attrs ∈ (handleSessionCreated st now session).log)) ∧
      (∀ q, q ≠ session.id → alGet (handleSessionCreated st now session).sessionSpans q
        = alGet st.sessionSpans q)) := by
  have hs1 := strategy1_skip st session hpid
  constructor
  · intro k psd hfind
    have hr := strategy2_title_main_found st.sessionSpans session.title emptyResolution t
      (k, psd) rfl hex ht hfind
    unfold handleSessionCreated
    rw [hs1]
    dsimp only
    rw [hr]
    dsimp only
    rw [if_pos (by simp [strTruthy, ht])]
    refine ⟨_, alGet_set_self _ _ _, rfl, ?_⟩
    exact ⟨_, List.mem_append_left _ (List.mem_append_right _ (List.mem_cons_self _ _))⟩
  · intro hfind
    have hr := strategy2_title_no_main st.sessionSpans session.title emptyResolution t
      rfl hex ht hfind
    unfold handleSessionCreated
    rw [hs1]
    dsimp only
    rw [hr]
    dsimp only
    rw [if_pos (by simp [strTruthy, ht])]
    constructor
    · refine ⟨_, alGet_set_self _ _ _, rfl, ?_⟩
      exact ⟨_, List.mem_append_left _ (List.mem_append_right _ (List.mem_cons_self _ _))⟩
    · intro q hq
      exact alGet_set_ne _ _ _ _ hq

/-- C10 witness: the first-main-session case applied to a concrete state. -/
theorem C10_witness :
    ∃ pd, alGet (handleSessionCreated C10base 1
        ⟨"u2", none, some "@planner subagent", "p", "d"⟩).phaseSpans "u2" = some pd ∧
      pd.span.traceId = 0 ∧
      (∃ attrs, SpanAction.start pd.span.sid "phase:planning" 0 (some 0) attrs
        ∈ (handleSessionCreated C10base 1
            ⟨"u2", none, some "@planner subagent", "p", "d"⟩).log) := by
  have h := (C10_theorem C10base 1 ⟨"u2", none, some "@planner subagent", "p", "d"⟩
    "planner" rfl (by decide) (by decide)).1 "u1" _ rfl
  exact h

/-! ## Claim C4 -/

/-- C4 counterexample.  The claim says that on every unit termination —
including TTL expiry — the paired Phase span is finalized before the Unit
span is ended.  For a subagent pair (phase span 0, unit span 1) expiring in
one GC sweep, the sweep ends the unit span first: the end order of the
sweep's appended actions is [1, 0]. -/
theorem C4_counterexample :
    (alGet C4base.phaseSpans "u2").map (fun pd => pd.span.sid) = some 0 ∧
    (alGet C4base.sessionSpans "u2").map (fun sd => sd.span.sid) = some 1 ∧
    endOrder (C4state.log.drop C4base.log.length) = [1, 0] := by
  exact ⟨by decide, by decide, by decide⟩

/-- C4 (amended): on idle and error termination the paired Phase span is
ended strictly before the Unit span — the appended actions end exactly the
phase span then the session span, and both records are removed — but on TTL
expiry the sweep ends the expired Unit span first and the Phase span after it
(both records are still removed within the same sweep). -/
theorem C4_theorem :
    (∀ (st : TraceState) (now : Nat) (sID : String) (sd : SessionData) (pd : PhaseData),
      alGet st.sessionSpans sID = some sd → alGet st.phaseSpans sID = some pd →
      endOrder ((handleSessionIdle st now sID).log.drop st.log.length)
        = [pd.span.sid, sd.span.sid] ∧
      alGet (handleSessionIdle st now sID).phaseSpans sID = none ∧
      alGet (handleSessionIdle st now sID).sessionSpans sID = none) ∧
    (∀ (st : TraceState) (now : Nat) (s : String) (err : Option ErrInfo)
      (sd : SessionData) (pd : PhaseData),
      s ≠ "" →
      alGet st.sessionSpans s = some sd → alGet st.phaseSpans s = some pd →
      endOrder ((handleSessionError st now (some s) err).log.drop st.log.length)
        = [pd.span.sid, sd.span.sid] ∧
      alGet (handleSessionError st now (some s) err).phaseSpans s = none ∧
      alGet (handleSessionError st now (some s) err).sessionSpans s = none) ∧
    (∀ (st : TraceState) (now : Nat) (k : String) (sd : SessionData) (pd : PhaseData),
      alGet st.sessionSpans k = some sd → alGet st.phaseSpans k = some pd →
      now - sd.startTime > SESSION_TTL_MS → now - pd.startTime > SESSION_TTL_MS →
      endsBeforeIn ((performTTLCleanup st now).log.drop st.log.length)
        sd.span.sid pd.span.sid ∧
      alGet (performTTLCleanup st now).sessionSpans k = none ∧
      alGet (performTTLCleanup st now).phaseSpans k = none) := by
  refine ⟨?_, ?_, ?_⟩
  · intro st now sID sd pd hsd hpd
    refine ⟨?_, ?_, ?_⟩
    · unfold handleSessionIdle cleanupPhaseSpan
      rw [hsd]
      dsimp only
      rw [hpd]
      dsimp only
      by_cases herr : sd.toolAggregate.errors.length > 0
      · rw [if_pos herr]
        simp only [if_true, emit, List.append_assoc, List.singleton_append]
        rw [List.drop_left]
        rfl
      · rw [if_neg herr]
        simp only [if_true, emit, List.append_assoc, List.singleton_append]
        rw [List.drop_left]
        rfl
    · unfold handleSessionIdle cleanupPhaseSpan
      rw [hsd]
      dsimp only
      rw [hpd]
      dsimp only
      by_cases herr : sd.toolAggregate.errors.length > 0
      · rw [if_pos herr]
        exact alGet_delete_self _ _
      · rw [if_neg herr]
        exact alGet_delete_self _ _
    · unfold handleSessionIdle cleanupPhaseSpan
      rw [hsd]
      dsimp only
      rw [hpd]
      dsimp only
      by_cases herr : sd.toolAggregate.errors.length > 0
      · rw [if_pos herr]
        exact alGet_delete_self _ _
      · rw [if_neg herr]
        exact alGet_delete_self _ _
  · intro st now s err sd pd hs hsd hpd
    have htr : ¬ ¬ strTruthy (some s) = true := by simp [strTruthy, hs]
    refine ⟨?_, ?_, ?_⟩
    · unfold handleSessionError cleanupPhaseSpan
      rw [if_neg htr]
      simp only [Option.getD_some]
      rw [hsd]
      dsimp only
      rw [hpd]
      dsimp only
      cases err <;>
        by_cases herr : sd.toolAggregate.errors.length > 0 <;>
        first
          | (rw [if_pos herr]
             simp only [Bool.false_eq_true, if_false, emit, List.append_assoc,
               List.singleton_append]
             rw [List.drop_left]
             rfl)
          | (rw [if_neg herr]
             simp only [Bool.false_eq_true, if_false, emit, List.append_assoc,
               List.singleton_append]
             rw [List.drop_left]
             rfl)
    · unfold handleSessionError cleanupPhaseSpan
      rw [if_neg htr]
      simp only [Option.getD_some]
      rw [hsd]
      dsimp only
      rw [hpd]
      dsimp only
      cases err <;>
        by_cases herr : sd.toolAggregate.errors.length > 0 <;>
        first
          | (rw [if_pos herr]; exact alGet_delete_self _ _)
          | (rw [if_neg herr]; exact alGet_delete_self _ _)
    · unfold handleSessionError cleanupPhaseSpan
      rw [if_neg htr]
      simp only [Option.getD_some]
      rw [hsd]
      dsimp only
      rw [hpd]
      dsimp only
      cases err <;>
        by_cases herr : sd.toolAggregate.errors.length > 0 <;>
        first
          | (rw [if_pos herr]; exact alGet_delete_self _ _)
          | (rw [if_neg herr]; exact alGet_delete_self _ _)
  · intro st now k sd pd hsd hpd hexps hexpp
    refine ⟨?_, ?_, ?_⟩
    · rw [performTTLCleanup_dropped_log]
      have hmemS : SpanAction.endSpan sd.span.sid ∈ sessSweepLog now st.sessionSpans :=
        List.mem_flatMap.mpr ⟨(k, sd), alGet_eq_some_mem hsd, by rw [if_pos hexps]; simp⟩
      have hmemP : SpanAction.endSpan pd.span.sid ∈ phaseSweepLog now st.phaseSpans :=
        List.mem_flatMap.mpr ⟨(k, pd), alGet_eq_some_mem hpd, by rw [if_pos hexpp]; simp⟩
      obtain ⟨i, hi⟩ := List.mem_iff_get?.mp hmemS
      obtain ⟨j, hj⟩ := List.mem_iff_get?.mp hmemP
      have hiL : i < (sessSweepLog now st.sessionSpans).length :=
        List.get?_eq_some.mp hi |>.1
      have hjL : j < (phaseSweepLog now st.phaseSpans).length :=
        List.get?_eq_some.mp hj |>.1
      refine ⟨i, (sessSweepLog now st.sessionSpans).length + j,
        Nat.lt_of_lt_of_le hiL (Nat.le_add_right _ _), ?_, ?_⟩
      · rw [List.get?_append hiL]
        exact hi
      · rw [List.get?_append_right (Nat.le_add_right _ _)]
        rw [Nat.add_sub_cancel_left]
        rw [List.get?_append hjL]
        exact hj
    · rw [performTTLCleanup_sessionSpans]
      exact sweepSessions_expired_none now _ st k sd (alGet_eq_some_mem hsd) hexps
    · rw [performTTLCleanup_phaseSpans]
      exact sweepPhases_expired_none now _ _ k pd (alGet_eq_some_mem hpd) hexpp

/-- C4 witness: the idle-path ordering applied to a concrete subagent pair. -/
theorem C4_witness :
    endOrder ((handleSessionIdle C4base 7 "u2").log.drop C4base.log.length) = [0, 1] ∧
    alGet (handleSessionIdle C4base 7 "u2").phaseSpans "u2" = none := by
  have h := C4_theorem.1 C4base 7 "u2" _ _ rfl rfl
  exact ⟨h.1, h.2.1⟩

/-! ## Claim C2 -/

/-- C2 counterexample.  The claim says that for a delegated unit with no
Handoff Record for its parent, a root Unit Record is synthesized for the
parent ("lazy parent").  Creating "u2" with dead parent "u1" on the empty
state leaves no record whatsoever for "u1", and the phase span is started
with no parent (the agent span's parent is the phase span, id 0). -/
theorem C2_counterexample :
    alGet C2state.sessionSpans "u1" = none ∧
    startParents C2state.log = [none, some 0] := by
  exact ⟨by decide, by decide⟩

/-- C2 (amended): for a delegated unit-created event whose parent id resolves
to no Handoff Record and no live Unit Record (and no other main session is
live), the engine synthesizes nothing for the parent — every other key's
binding is unchanged — and instead starts the Phase span with no parent
context, rooting a fresh trace; the operation still never fails: the child's
phase and unit records are installed. -/
theorem C2_theorem (st : TraceState) (now : Nat) (session : SessInfo) (p t : String)
    (h1 : session.parentID = some p) (h2 : p ≠ "")
    (hs : alGet st.sessionSpans p = none)
    (hp : alGet st.pendingSubagentContext p = none)
    (hex : extractSubagentTypeFromTitle session.title = some t) (ht : t ≠ "")
    (hfind : st.sessionSpans.find? (fun e => !(strTruthy e.2.agentType)) = none) :
    (∀ q, q ≠ session.id → alGet (handleSessionCreated st now session).sessionSpans q
      = alGet st.sessionSpans q) ∧
    (∃ pd, alGet (handleSessionCreated st now session).phaseSpans session.id = some pd ∧
      pd.span.traceId = st.nextTraceId ∧
      (∃ attrs, SpanAction.start pd.span.sid ("phase:" ++ getPhaseForAgent t)
        st.nextTraceId none attrs ∈ (handleSessionCreated st now session).log)) ∧
    (∃ sd', alGet (handleSessionCreated st now session).sessionSpans session.id
      = some sd') := by
  have hs1 := strategy1_nothing_found st session p h1 h2 hs hp
  have hr := strategy2_title_no_main st.sessionSpans session.title
    { emptyResolution with s1HasParentId := true, foundParentSessionId := some p } t
    rfl hex ht hfind
  unfold handleSessionCreated
  rw [hs1]
  dsimp only
  rw [hr]
  dsimp only
  rw [if_pos (by simp [strTruthy, ht])]
  refine ⟨?_, ?_, ?_⟩
  · intro q hq
    exact alGet_set_ne _ _ _ _ hq
  · refine ⟨_, alGet_set_self _ _ _, rfl, ?_⟩
    exact ⟨_, List.mem_append_left _ (List.mem_append_right _ (List.mem_cons_self _ _))⟩
  · exact ⟨_, alGet_set_self _ _ _⟩

/-- C2 witness: the amended theorem applied to the concrete dead-parent
scenario. -/
theorem C2_witness :
    alGet (handleSessionCreated initState 0
      ⟨"u2", some "u1", some "@planner subagent", "p", "d"⟩).sessionSpans "u1"
      = alGet initState.sessionSpans "u1" ∧
    (∃ sd', alGet (handleSessionCreated initState 0
      ⟨"u2", some "u1", some "@planner subagent", "p", "d"⟩).sessionSpans "u2"
      = some sd') := by
  have h := C2_theorem initState 0 ⟨"u2", some "u1", some "@planner subagent", "p", "d"⟩
    "u1" "planner" rfl (by decide) rfl rfl (by decide) (by decide) rfl
  exact ⟨h.1 "u1" (by decide), h.2.2⟩

/-! ## Claim C6 -/

/-- C6: after one GC sweep at time `now`, every Tool Execution and Handoff
Record whose age exceeds its TTL is absent from its table; every Unit or
Phase record whose age exceeds the session TTL has its span marked with the
"ttl_expired" reason, set to an error status with an expiry message, ended,
and removed from its table; a dropped Tool Execution Record leaves a
breadcrumb event carrying its call id if and only if the owning unit's
record is still live after the sweep; and a dropped Handoff Record leaves a
breadcrumb on the owning unit's span when that unit survives, every handoff
breadcrumb in the sweep's output being on the span of a still-live owner. -/
theorem C6_theorem (st : TraceState) (now : Nat)
    (hnodup : nodupKeys st.toolExecutions) :
    (∀ cid ex, alGet st.toolExecutions cid = some ex →
      now - ex.startTime > TOOL_TTL_MS →
      alGet (performTTLCleanup st now).toolExecutions cid = none) ∧
    (∀ k pend, alGet st.pendingSubagentContext k = some pend →
      now - pend.createdAt > PENDING_CONTEXT_TTL_MS →
      alGet (performTTLCleanup st now).pendingSubagentContext k = none) ∧
    (∀ k sd, alGet st.sessionSpans k = some sd →
      now - sd.startTime > SESSION_TTL_MS →
      alGet (performTTLCleanup st now).sessionSpans k = none ∧
      SpanAction.setAttrs sd.span.sid [
        ("session.cleanup_reason", .s "ttl_expired"),
        ("session.age_ms", .n (now - sd.startTime))]
        ∈ (performTTLCleanup st now).log.drop st.log.length ∧
      SpanAction.setStatus sd.span.sid false "Session TTL expired"
        ∈ (performTTLCleanup st now).log.drop st.log.length ∧
      SpanAction.endSpan sd.span.sid
        ∈ (performTTLCleanup st now).log.drop st.log.length) ∧
    (∀ k pd, alGet st.phaseSpans k = some pd →
      now - pd.startTime > SESSION_TTL_MS →
      alGet (performTTLCleanup st now).phaseSpans k = none ∧
      SpanAction.setAttrs pd.span.sid [
        ("phase.cleanup_reason", .s "ttl_expired"),
        ("phase.age_ms", .n (now - pd.startTime))]
        ∈ (performTTLCleanup st now).log.drop st.log.length ∧
      SpanAction.setStatus pd.span.sid false "Phase TTL expired"
        ∈ (performTTLCleanup st now).log.drop st.log.length ∧
      SpanAction.endSpan pd.span.sid
        ∈ (performTTLCleanup st now).log.drop st.log.length) ∧
    (∀ cid ex, alGet st.toolExecutions cid = some ex →
      now - ex.startTime > TOOL_TTL_MS →
      (hasToolBreadcrumbFor cid ((performTTLCleanup st now).log.drop st.log.length)
          = true ↔
        (alGet (performTTLCleanup st now).sessionSpans ex.sessionID).isSome = true)) ∧
    (∀ k pend sd, alGet st.pendingSubagentContext k = some pend →
      now - pend.createdAt > PENDING_CONTEXT_TTL_MS →
      alGet (performTTLCleanup st now).sessionSpans pend.parentSessionId = some sd →
      pendingBreadcrumbAction now pend sd.span.sid
        ∈ (performTTLCleanup st now).log.drop st.log.length) ∧
    (∀ a, a ∈ (performTTLCleanup st now).log.drop st.log.length →
      isPendingBreadcrumb a = true →
      ∃ k pend sd, (k, pend) ∈ st.pendingSubagentContext ∧
        alGet (performTTLCleanup st now).sessionSpans pend.parentSessionId = some sd ∧
        a = pendingBreadcrumbAction now pend sd.span.sid) := by
  refine ⟨?_, ?_, ?_, ?_, ?_, ?_, ?_⟩
  · intro cid ex hex hexp
    rw [performTTLCleanup_toolExecutions]
    exact sweepTools_expired_none now _ _ cid ex (alGet_eq_some_mem hex) hexp
  · intro k pend hp hexp
    rw [performTTLCleanup_pendings]
    exact sweepPendings_expired_none now _ _ k pend (alGet_eq_some_mem hp) hexp
  · intro k sd hsd hexp
    refine ⟨?_, ?_, ?_, ?_⟩
    · rw [performTTLCleanup_sessionSpans]
      exact sweepSessions_expired_none now _ st k sd (alGet_eq_some_mem hsd) hexp
    · rw [performTTLCleanup_dropped_log]
      exact List.mem_append_left _
        (List.mem_flatMap.mpr ⟨(k, sd), alGet_eq_some_mem hsd, by rw [if_pos hexp]; simp⟩)
    · rw [performTTLCleanup_dropped_log]
      exact List.mem_append_left _
        (List.mem_flatMap.mpr ⟨(k, sd), alGet_eq_some_mem hsd, by rw [if_pos hexp]; simp⟩)
    · rw [performTTLCleanup_dropped_log]
      exact List.mem_append_left _
        (List.mem_flatMap.mpr ⟨(k, sd), alGet_eq_some_mem hsd, by rw [if_pos hexp]; simp⟩)
  · intro k pd hpd hexp
    refine ⟨?_, ?_, ?_, ?_⟩
    · rw [performTTLCleanup_phaseSpans]
      exact sweepPhases_expired_none now _ _ k pd (alGet_eq_some_mem hpd) hexp
    · rw [performTTLCleanup_dropped_log]
      exact List.mem_append_right _ (List.mem_append_left _
        (List.mem_flatMap.mpr ⟨(k, pd), alGet_eq_some_mem hpd, by rw [if_pos hexp]; simp⟩))
    · rw [performTTLCleanup_dropped_log]
      exact List.mem_append_right _ (List.mem_append_left _
        (List.mem_flatMap.mpr ⟨(k, pd), alGet_eq_some_mem hpd, by rw [if_pos hexp]; simp⟩))
    · rw [performTTLCleanup_dropped_log]
      exact List.mem_append_right _ (List.mem_append_left _
        (List.mem_flatMap.mpr ⟨(k, pd), alGet_eq_some_mem hpd, by rw [if_pos hexp]; simp⟩))
  · intro cid ex hex hexp
    rw [performTTLCleanup_dropped_log, hasToolBreadcrumbFor_append,
      hasToolBreadcrumbFor_append, hasToolBreadcrumbFor_append,
      hasToolBreadcrumbFor_sessSweepLog, hasToolBreadcrumbFor_phaseSweepLog,
      hasToolBreadcrumbFor_pendingSweepLog]
    simp only [Bool.false_or, Bool.or_false]
    rw [hasToolBreadcrumbFor_toolSweepLog, performTTLCleanup_sessionSpans]
    constructor
    · rintro ⟨ex', hm', _, hsome'⟩
      have h2 := nodupKeys_mem_eq hnodup hm'
      rw [hex] at h2
      have h3 := Option.some.inj h2
      rw [h3]
      exact hsome'
    · intro hsome
      exact ⟨ex, alGet_eq_some_mem hex, hexp, hsome⟩
  · intro k pend sd hp hexp hsd
    rw [performTTLCleanup_sessionSpans] at hsd
    rw [performTTLCleanup_dropped_log]
    refine List.mem_append_right _ (List.mem_append_right _ (List.mem_append_right _ ?_))
    exact List.mem_flatMap.mpr ⟨(k, pend), alGet_eq_some_mem hp,
      by rw [if_pos hexp, hsd]; simp⟩
  · intro a ha hpb
    rw [performTTLCleanup_dropped_log] at ha
    rcases List.mem_append.mp ha with hS | hrest
    · rw [isPendingBreadcrumb_false_sessSweepLog now _ a hS] at hpb
      cases hpb
    rcases List.mem_append.mp hrest with hP | hrest2
    · rw [isPendingBreadcrumb_false_phaseSweepLog now _ a hP] at hpb
      cases hpb
    rcases List.mem_append.mp hrest2 with hT | hPd
    · rw [isPendingBreadcrumb_false_toolSweepLog now _ _ a hT] at hpb
      cases hpb
    · obtain ⟨e, sd, hme, hexp2, hcs, hEq⟩ := mem_pendingSweepLog_elim now _ _ a hPd
      refine ⟨e.1, e.2, sd, ?_, ?_, hEq⟩
      · cases e
        exact hme
      · rw [performTTLCleanup_sessionSpans]
        exact hcs

/-- C6 witness: the expired-tool-execution conjunct applied to a concrete
state holding one stale execution record. -/
theorem C6_witness :
    alGet (performTTLCleanup C6base (TOOL_TTL_MS + 2)).toolExecutions "c1" = none := by
  exact (C6_theorem C6base (TOOL_TTL_MS + 2) (by decide)).1 "c1"
    ⟨"read", "c1", 1, 1, "u1", "undefined"⟩ rfl (by decide)

/-! ## Claim C7 -/

/-- C7: a tool invocation is finalized by at most one of the two paths.  If
the error path (`message.part.updated` with status `"error"`) finalizes a live
Tool Execution Record, the record is deleted, and a later
`tool.execute.after` for the same call id is a strict no-op; conversely, once
`tool.execute.after` has processed a live record, a later
`message.part.updated` for that call id is a strict no-op.  No duplicate
duration, marker, or error entry can be added. -/
theorem C7_theorem (st : TraceState) (now now2 : Nat) (cid : String) (ex : ToolExecution)
    (hex : alGet st.toolExecutions cid = some ex) :
    (∀ (sd : SessionData) (err : Option String) (tool2 outTitle : String)
      (out2 : Option String),
      alGet st.sessionSpans ex.sessionID = some sd →
      handleToolAfter (handleMessagePartUpdated st now "tool" cid "error" err)
          now2 cid tool2 outTitle out2
        = handleMessagePartUpdated st now "tool" cid "error" err) ∧
    (∀ (tool outTitle : String) (output : Option String) (pt status : String)
      (err : Option String),
      handleMessagePartUpdated (handleToolAfter st now cid tool outTitle output)
          now2 pt cid status err
        = handleToolAfter st now cid tool outTitle output) := by
  constructor
  · intro sd err tool2 outTitle out2 hsd
    have hdel : alGet (handleMessagePartUpdated st now "tool" cid "error" err).toolExecutions
        cid = none := by
      unfold handleMessagePartUpdated
      rw [if_neg (by simp : ¬ (("tool" : String) ≠ "tool"))]
      rw [hex]
      dsimp only
      rw [hsd]
      dsimp only
      rw [if_pos (rfl : ("error" : String) = "error")]
      exact alGet_delete_self _ _
    unfold handleToolAfter
    rw [hdel]
  · intro tool outTitle output pt status err
    have hdel2 : alGet (handleToolAfter st now cid tool outTitle output).toolExecutions
        cid = none := by
      unfold handleToolAfter
      rw [hex]
      dsimp only
      cases hsd2 : alGet st.sessionSpans ex.sessionID with
      | none => exact alGet_delete_self _ _
      | some sd => exact alGet_delete_self _ _
    unfold handleMessagePartUpdated
    by_cases hpt : pt = "tool"
    · rw [if_neg (by simp [hpt] : ¬ (pt ≠ "tool"))]
      rw [hdel2]
    · rw [if_pos hpt]

/-- C7 witness: the theorem applied to a concrete state holding a live
execution record for call "c1". -/
theorem C7_witness :
    handleToolAfter (handleMessagePartUpdated C7state 2 "tool" "c1" "error" (some "boom"))
        3 "c1" "read" "t" none
      = handleMessagePartUpdated C7state 2 "tool" "c1" "error" (some "boom") := by
  exact (C7_theorem C7state 2 3 "c1" ⟨"read", "c1", 1, 1, "u1", "undefined"⟩ rfl).1
    _ (some "boom") "read" "t" none rfl

/-! ## Claim C8 -/

/-- C8 counterexample.  The claim says the stored `argsPreview` never exceeds
a fixed hard cap independent of the source arguments.  A `read` call whose
args carry a 250-character description stores a 250-character preview, above
the only cap in the code (the 200-character slice of the JSON fallback). -/
theorem C8_counterexample :
    (alGet (handleToolBefore C8base 1 "u1" "c1" "read"
        (some ⟨none, some C8longDesc, "x"⟩)).toolExecutions "c1").map
      (fun ex => ex.argsPreview.length) = some 250 ∧ 200 < 250 := by
  constructor
  · decide
  · decide

/-- C8 (amended): the recorded `argsPreview` is `computeArgsPreview`, which is
capped at 200 characters only in the `JSON.stringify` fallback branch (tool
not `task`/args absent, and no truthy `description`); in the `description`
branch the preview is the raw description, verbatim and uncapped. -/
theorem C8_theorem (tool : String) (args : Option ToolArgs) (st : TraceState) (now : Nat)
    (sessionID callID : String) (sd : SessionData)
    (h : alGet st.sessionSpans sessionID = some sd) :
    (∃ ex, alGet (handleToolBefore st now sessionID callID tool args).toolExecutions callID
        = some ex ∧ ex.argsPreview = computeArgsPreview tool args) ∧
    (¬ (tool = "task" ∧ args.isSome) →
      strTruthy (args.bind (fun a => a.description)) = false →
      (computeArgsPreview tool args).length ≤ 200) ∧
    (¬ (tool = "task" ∧ args.isSome) →
      strTruthy (args.bind (fun a => a.description)) = true →
      computeArgsPreview tool args = (args.bind (fun a => a.description)).getD "") := by
  refine ⟨?_, ?_, ?_⟩
  · unfold handleToolBefore
    rw [h]
    dsimp only
    split
    · exact ⟨_, alGet_set_self _ _ _, rfl⟩
    · exact ⟨_, alGet_set_self _ _ _, rfl⟩
  · intro h1 h2
    unfold computeArgsPreview
    rw [if_neg h1, if_neg (by simp [h2])]
    exact jsSlice_length_le _ _
  · intro h1 h2
    unfold computeArgsPreview
    rw [if_neg h1, if_pos h2]

/-- C8 witness: the amended theorem applied at a concrete input. -/
theorem C8_witness :
    (∃ ex, alGet (handleToolBefore C8base 1 "u1" "cY" "read" none).toolExecutions "cY"
        = some ex ∧ ex.argsPreview = computeArgsPreview "read" none) ∧
    (computeArgsPreview "read" none).length ≤ 200 := by
  obtain ⟨h1, h2, _⟩ := C8_theorem "read" none C8base 1 "u1" "cY" _ rfl
  exact ⟨h1, h2 (by simp) rfl⟩

/-! ## Claim C9 -/

/-- C9 counterexample.  The claim says the aggregate's retained error log
never exceeds a fixed maximum (the only such constant is the 50-entry slice
at flush time).  After 51 tool-error signals on one unit, the retained error
log holds 51 entries. -/
theorem C9_counterexample :
    (alGet C9state.sessionSpans "u1").map
      (fun sd => sd.toolAggregate.errors.length) = some 51 ∧ 50 < 51 := by
  constructor
  · decide
  · decide

/-- C9 (amended): the aggregate's error log is unbounded — each tool-error
signal appends exactly one entry with no truncation — and only the
`tools.errors_detail` span payload flushed at closure is capped, at the first
50 entries. -/
theorem C9_theorem :
    (∀ (st : TraceState) (now : Nat) (cid : String) (ex : ToolExecution) (sd : SessionData)
      (err : Option String),
      alGet st.toolExecutions cid = some ex →
      alGet st.sessionSpans ex.sessionID = some sd →
      ∃ sd', alGet (handleMessagePartUpdated st now "tool" cid "error" err).sessionSpans
          ex.sessionID = some sd' ∧
        sd'.toolAggregate.errors = sd.toolAggregate.errors ++
          [⟨ex.tool, jsOrS err "Unknown error", now, cid, ex.sequenceNumber⟩]) ∧
    (∀ (st : TraceState) (now : Nat) (sessionID : String) (sd : SessionData),
      alGet st.sessionSpans sessionID = some sd →
      0 < sd.toolAggregate.errors.length →
      SpanAction.setAttr sd.span.sid "tools.errors_detail"
          (.errs (sd.toolAggregate.errors.take 50))
        ∈ (handleSessionIdle st now sessionID).log ∧
      (sd.toolAggregate.errors.take 50).length ≤ 50) := by
  constructor
  · intro st now cid ex sd err hex hsd
    unfold handleMessagePartUpdated
    rw [if_neg (by simp : ¬ (("tool" : String) ≠ "tool"))]
    rw [hex]
    dsimp only
    rw [hsd]
    dsimp only
    rw [if_pos (rfl : ("error" : String) = "error")]
    dsimp only
    exact ⟨_, alGet_set_self _ _ _, rfl⟩
  · intro st now sessionID sd hsd hlen
    constructor
    · unfold handleSessionIdle
      rw [hsd]
      dsimp only
      rw [if_pos hlen]
      simp [emit, List.mem_append]
    · rw [List.length_take]
      exact Nat.min_le_left _ _

/-- C9 witness: both conjuncts applied at the concrete 51-error state. -/
theorem C9_witness :
    (∃ sd', alGet (handleMessagePartUpdated
        (handleToolBefore C9state 0 "u1" "cZ" "bash" none) 9 "tool" "cZ" "error"
          (some "boom")).sessionSpans "u1" = some sd' ∧
      sd'.toolAggregate.errors.length = 52) := by
  obtain ⟨sd', hget, herr⟩ := C9_theorem.1 (handleToolBefore C9state 0 "u1" "cZ" "bash" none)
    9 "cZ" ⟨"bash", "cZ", 0, 52, "u1", "undefined"⟩ _ (some "boom") rfl rfl
  refine ⟨sd', hget, ?_⟩
  rw [herr]
  decide

end HoneycombTracing
